import Mathlib

/- Verification development for the Pythography bibliographic-record library:
   a shallow embedding of the field-validation engine (bibdata.py) and of the
   BibTeX text codec (bibtex.py), with theorems about their behaviour.

   Strings are modelled as `List Char`.  Python exceptions that escape the code
   under study are modelled by the `PyErr` error type of `Except`; exceptions
   that the code catches are handled where the code catches them. -/

namespace Pythography

/-- Characters of a string literal; used to write field names and test inputs. -/
def chars (s : String) : List Char := s.data

/-- Python whitespace test for one character (the characters stripped by
    str.strip and matched by the regex class \s). -/
def pySpace (c : Char) : Bool :=
  c == ' ' || c == '\t' || c == '\n' || c == '\r' || c == '\x0b' || c == '\x0c'

/-- Python str.strip(): remove leading and trailing whitespace. -/
def pyStrip (l : List Char) : List Char :=
  ((l.dropWhile pySpace).reverse.dropWhile pySpace).reverse

/-- Python str.lower(), on the ASCII range that the library manipulates. -/
def pyLower (l : List Char) : List Char := l.map Char.toLower

/-- Python str.split(sep) for a one-character separator: empty pieces are kept,
    and the empty string yields one empty piece. -/
def pySplitChar (sep : Char) : List Char → List (List Char)
  | [] => [[]]
  | c :: rest =>
    match pySplitChar sep rest with
    | [] => [[c]]
    | h :: t => if c == sep then [] :: h :: t else (c :: h) :: t

/-- Numeric value of a digit string (helper for int()). -/
def natOfDigits (l : List Char) : Nat :=
  l.foldl (fun a c => a * 10 + (c.toNat - 48)) 0

/-- All characters are decimal digits and there is at least one. -/
def allDigits (l : List Char) : Bool := !l.isEmpty && l.all Char.isDigit

/-- Python int(str): strip whitespace, optional sign, decimal digits, otherwise
    ValueError (modelled as none).  Underscore digit grouping, accepted by
    Python, is not modelled; no input in this development uses it. -/
def pyInt (l : List Char) : Option Int :=
  match pyStrip l with
  | '-' :: rest => if allDigits rest then some (-(natOfDigits rest : Int)) else none
  | '+' :: rest => if allDigits rest then some (natOfDigits rest : Int) else none
  | t => if allDigits t then some (natOfDigits t : Int) else none

/-- Python str(int). -/
def intChars (n : Int) : List Char := (toString n).data

/-- Join pieces with a separator (str.flatten). -/
def joinSep (sep : List Char) : List (List Char) → List Char
  | [] => []
  | [x] => x
  | x :: xs => x ++ sep ++ joinSep sep xs

/-- Python list indexing l[i] for a possibly negative index: the resulting
    non-negative position, or none for an IndexError. -/
def pyIdx (len : Nat) (i : Int) : Option Nat :=
  if 0 ≤ i then (if i.toNat < len then some i.toNat else none)
  else (if 0 ≤ (len : Int) + i then some ((len : Int) + i).toNat else none)

/-- Exceptions that escape the code under study. -/
inductive PyErr
  | keyError
  | typeError
  | indexError
  | valueError
deriving DecidableEq

/-- Python list indexing into a list of strings, raising IndexError when out of
    range. -/
def pyListGet (l : List (List Char)) (i : Int) : Except PyErr (List Char) :=
  match pyIdx l.length i with
  | none => .error .indexError
  | some j =>
    match l.get? j with
    | none => .error .indexError
    | some x => .ok x

/- ===== bibdata.Author and bibdata.AuthorList ===== -/

/-- bibdata.Author: a surname and a list of forenames. -/
structure Author where
  name : List Char
  forenames : List (List Char)
deriving DecidableEq

/-- Author.__init__ when value is a list: element 0 is the surname and the rest
    are forenames, verbatim; an empty list raises IndexError. -/
def authorFromList (value : List (List Char)) : Except PyErr Author :=
  match value with
  | [] => .error .indexError
  | n :: rest => .ok ⟨n, rest⟩

/-- The comprehension [p.strip() for p in l.split(' ') if (len(p.strip()) > 1)]
    used by Author.__init__. -/
def splitStripFilter (l : List Char) : List (List Char) :=
  ((pySplitChar ' ' l).map pyStrip).filter (fun p => p.length > 1)

/-- Author.__init__ when value is a string: split on commas; two parts mean
    surname before the comma and filtered space-split forenames after it; one
    part means the space-split/strip/length-filter applies to the whole string
    with the last surviving token as surname; any other part count raises
    ValueError.  parts[-1] of an empty token list raises IndexError. -/
def authorFromString (value : List Char) : Except PyErr Author :=
  match pySplitChar ',' value with
  | [p0, p1] => .ok ⟨pyStrip p0, splitStripFilter p1⟩
  | [_] =>
    let parts := splitStripFilter value
    match parts.getLast? with
    | none => .error .indexError
    | some n => .ok ⟨n, parts.dropLast⟩
  | _ => .error .valueError

/-- Author.__getitem__('initial'): first character of the surname, uppercased;
    IndexError on an empty surname. -/
def authorInitial (a : Author) : Except PyErr Char :=
  match a.name with
  | [] => .error .indexError
  | c :: _ => .ok c.toUpper

/-- Author.__str__. -/
def authorStr (a : Author) : List Char :=
  a.name ++ chars ", " ++ joinSep (chars " ") a.forenames

/-- Python str.split(" and "): leftmost non-overlapping occurrences of the
    five-character separator.  Structured on fuel; fuel ≥ length suffices. -/
def splitOnAnd : Nat → List Char → List (List Char)
  | 0, l => [l]
  | _ + 1, [] => [[]]
  | fuel + 1, c :: rest =>
    if (c :: rest).take 5 = chars " and " then
      [] :: splitOnAnd fuel ((c :: rest).drop 5)
    else
      match splitOnAnd fuel rest with
      | [] => [[c]]
      | h :: t => (c :: h) :: t

/-- Parse each piece as an Author, propagating the first exception. -/
def authorsOfPieces : List (List Char) → Except PyErr (List Author)
  | [] => .ok []
  | p :: rest =>
    match authorFromString p with
    | .error e => .error e
    | .ok a =>
      match authorsOfPieces rest with
      | .error e => .error e
      | .ok l => .ok (a :: l)

/-- AuthorList.__init__ from a string: split on " and " and parse each piece. -/
def authorListFromString (value : List Char) : Except PyErr (List Author) :=
  authorsOfPieces (splitOnAnd (value.length + 1) value)

/-- AuthorList.__str__. -/
def authorListStr (l : List Author) : List Char :=
  joinSep (chars " and ") (l.map authorStr)

/- ===== bibdata.DOI ===== -/

/-- bibdata.DOI: validated prefix and suffix parts. -/
structure DOIv where
  pre : List Char
  suf : List Char
deriving DecidableEq

/-- DOI.__init__: full match of (10\..{4})/(.+) — "10.", four arbitrary
    non-newline characters, "/", and a non-empty non-newline suffix; anything
    else raises ValueError (modelled as none). -/
def doiParse (value : List Char) : Option DOIv :=
  match value with
  | '1' :: '0' :: '.' :: a :: b :: c :: d :: '/' :: rest =>
    if rest.isEmpty then none
    else if (a :: b :: c :: d :: rest).all (fun x => !(x == '\n')) then
      some ⟨['1', '0', '.', a, b, c, d], rest⟩
    else none
  | _ => none

/-- DOI.__str__. -/
def doiStr (d : DOIv) : List Char := d.pre ++ ['/'] ++ d.suf

/- ===== BibTeXData.__BibTexFields.__PageRange ===== -/

/-- PageRange.__init__: full match of (\d+)\s*(?:-\x7b1,2\x7d\s*(\d+))?.
    When the end group matches, the range (begin, some end) results; when it
    does not, match['end'] is None and int(None) raises TypeError — the
    source catches only KeyError there, so the TypeError escapes.  The result
    none models a failed match (ValueError). -/
def pageRangeParse (value : List Char) : Option (Nat × Option Nat) :=
  match value.span Char.isDigit with
  | (ds, r1) =>
    if ds.isEmpty then none
    else
      match r1.dropWhile pySpace with
      | [] => some (natOfDigits ds, none)
      | '-' :: r3 =>
        let r4 := match r3 with
          | '-' :: r => r
          | _ => r3
        match (r4.dropWhile pySpace).span Char.isDigit with
        | (es, r6) =>
          if es.isEmpty || !r6.isEmpty then none
          else some (natOfDigits ds, some (natOfDigits es))
      | _ => none

/-- PageRange.__str__. -/
def pageRangeStr (b e : Int) : List Char :=
  if b == e then intChars b else intChars b ++ chars "--" ++ intChars e

/- ===== BibTeXData month validator ===== -/

def monthsL : List (List Char) :=
  [chars "jan", chars "feb", chars "mar", chars "apr", chars "may", chars "jun",
   chars "jul", chars "aug", chars "sep", chars "oct", chars "nov", chars "dec"]

def longMonthsL : List (List Char) :=
  [chars "january", chars "february", chars "march", chars "april", chars "may",
   chars "june", chars "july", chars "august", chars "september",
   chars "october", chars "november", chars "december"]

/-- Outcome of the month validator: a replacement value or False. -/
inductive MonthRes
  | replaced (m : List Char)
  | invalid
deriving DecidableEq

/-- BibTeXData.__BibTexFields.__monthValidator: normalize a month name to its
    three-letter lowercase form.  A short name is lowercased; a long name is
    translated through its index; a numeric month indexes months[int(m) - 1]
    with Python semantics, so 0 yields "dec" via index -1 and an index out of
    range raises IndexError, which the validation engine does not catch. -/
def monthValidator (month : List Char) : Except PyErr MonthRes :=
  let low := pyLower month
  if monthsL.contains low then .ok (.replaced low)
  else
    match longMonthsL.findIdx? (fun m => m == low) with
    | some i =>
      match pyListGet monthsL (i : Int) with
      | .error e => .error e
      | .ok m => .ok (.replaced m)
    | none =>
      match pyInt month with
      | none => .ok .invalid
      | some n =>
        match pyListGet monthsL (n - 1) with
        | .error e => .error e
        | .ok m => .ok (.replaced m)

/- ===== Dynamic values and the validation engine (bibdata.BibData) ===== -/

/-- The dynamic values that flow through the validation engine: raw strings and
    the typed values the BibTeX field coercions produce. -/
inductive Value
  | vStr (s : List Char)
  | vInt (n : Int)
  | vAuthorList (l : List Author)
  | vDOI (d : DOIv)
  | vPageRange (b e : Int)
deriving DecidableEq

/-- Python str() on a dynamic value (total). -/
def pyStr : Value → List Char
  | .vStr s => s
  | .vInt n => intChars n
  | .vAuthorList l => authorListStr l
  | .vDOI d => doiStr d
  | .vPageRange b e => pageRangeStr b e

/-- The diagnostics (warnings) the library reports.  The source emits the same
    message text for a validator failure and for a value outside the allowed
    set; they are kept distinct here to identify the emitting step. -/
inductive Diag
  | unknownField (name : List Char)
  | typeMismatch (name : List Char)
  | belowMinimum (name : List Char)
  | aboveMaximum (name : List Char)
  | failedValidator (name : List Char)
  | notInAllowedSet (name : List Char)
  | duplicateField (name : List Char)
  | unexpectedCharacter (c : Char)
  | entryEndOfInput
  | groupEndOfInput
  | missingRequiredField (name : List Char)
deriving DecidableEq

/-- The type coercions declared by the BibTeX schema. -/
inductive Coer
  | cStr
  | cInt
  | cAuthorList
  | cDOI
  | cPageRange
deriving DecidableEq

/-- The validators declared by the BibTeX schema. -/
inductive Validator
  | monthV
deriving DecidableEq

/-- One Field Specification: declared type, optional bounds, optional
    validator, optional allowed-value set. -/
structure FieldSpec where
  ty : Coer
  min : Option Int := none
  max : Option Int := none
  validator : Option Validator := none
  values : Option (List Value) := none
deriving DecidableEq

/-- Outcome of a type coercion: a value, a ValueError (which __check catches
    and turns into a type-mismatch diagnostic), or an escaping exception. -/
inductive CoerceOut
  | ok (v : Value)
  | valErr
  | exn (e : PyErr)
deriving DecidableEq

/-- field['type'](value) for each declared type.  str() is total; int() of a
    class instance raises TypeError; the class constructors raise TypeError on
    an already-typed argument (for AuthorList the raise statement itself names
    an undefined variable, so a NameError escapes instead — modelled alike as
    an escaping exception); PageRange of a match without an end group reaches
    int(None), whose TypeError escapes the KeyError handler in the source. -/
def coerce : Coer → Value → CoerceOut
  | .cStr, v => .ok (.vStr (pyStr v))
  | .cInt, .vStr s =>
    (match pyInt s with
     | some n => .ok (.vInt n)
     | none => .valErr)
  | .cInt, .vInt n => .ok (.vInt n)
  | .cInt, _ => .exn .typeError
  | .cAuthorList, .vStr s =>
    (match authorListFromString s with
     | .ok l => .ok (.vAuthorList l)
     | .error .valueError => .valErr
     | .error e => .exn e)
  | .cAuthorList, _ => .exn .typeError
  | .cDOI, .vStr s =>
    (match doiParse s with
     | some d => .ok (.vDOI d)
     | none => .valErr)
  | .cDOI, _ => .exn .typeError
  | .cPageRange, .vStr s =>
    (match pageRangeParse s with
     | some (b, some e) => .ok (.vPageRange b e)
     | some (_, none) => .exn .typeError
     | none => .valErr)
  | .cPageRange, _ => .exn .typeError

/-- field['validator'](v): the month validator lowercases its argument, so a
    non-string value raises an (escaping) AttributeError, modelled typeError. -/
def applyValidator : Validator → Value → Except PyErr MonthRes
  | .monthV, .vStr s => monthValidator s
  | .monthV, _ => .error .typeError

/-- Outcome of BibData.__check: a final typed value, one or more warnings with
    the field rejected, or an escaping exception. -/
inductive CheckOut
  | ok (v : Value)
  | fail (ds : List Diag)
  | exn (e : PyErr)
deriving DecidableEq

/-- Step 6 of __check: allowed-value set membership. -/
def bdCheckValues (field : FieldSpec) (v : Value) (name : List Char) : CheckOut :=
  match field.values with
  | none => .ok v
  | some vs => if v ∈ vs then .ok v else .fail [.notInAllowedSet name]

/-- Step 5 of __check: the validator.  A False result is a warning; a non-True
    result replaces the value (the month validator only returns strings or
    False, so a truthy result always replaces); a ValueError is caught as a
    warning; other exceptions escape. -/
def bdCheckValidator (field : FieldSpec) (v : Value) (name : List Char) : CheckOut :=
  match field.validator with
  | none => bdCheckValues field v name
  | some vd =>
    match applyValidator vd v with
    | .error .valueError => .fail [.failedValidator name]
    | .error e => .exn e
    | .ok .invalid => .fail [.failedValidator name]
    | .ok (.replaced m) => bdCheckValues field (.vStr m) name

/-- Step 4 of __check: the declared maximum.  The comparison v > max between a
    non-int value and an int bound raises TypeError (never reached by the
    BibTeX schema, which bounds only int fields). -/
def bdCheckMax (field : FieldSpec) (v : Value) (name : List Char) : CheckOut :=
  match field.max, v with
  | none, _ => bdCheckValidator field v name
  | some m, .vInt n =>
    if m < n then .fail [.aboveMaximum name] else bdCheckValidator field v name
  | some _, _ => .exn .typeError

/-- Step 3 of __check: the declared minimum. -/
def bdCheckMin (field : FieldSpec) (v : Value) (name : List Char) : CheckOut :=
  match field.min, v with
  | none, _ => bdCheckMax field v name
  | some m, .vInt n =>
    if n < m then .fail [.belowMinimum name] else bdCheckMax field v name
  | some _, _ => .exn .typeError

/-- Steps 2 to 6 of __check for a resolved Field Specification: coerce, check
    bounds, run the validator, check the allowed set; the first failing step
    warns once and rejects the field. -/
def checkField (field : FieldSpec) (value : Value) (name : List Char) : CheckOut :=
  match coerce field.ty value with
  | .valErr => .fail [.typeMismatch name]
  | .exn e => .exn e
  | .ok v0 => bdCheckMin field v0 name

/-- BibData.__check(value, name): look the field up and run the pipeline. -/
def bdCheck (fields : List Char → Option FieldSpec) (value : Value)
    (name : List Char) : CheckOut :=
  match fields name with
  | none => .fail [.unknownField name]
  | some field => checkField field value name

/- ===== Records (bibdata.BibData's ordered mapping) ===== -/

abbrev FieldName := List Char
abbrev Dict := List (FieldName × Value)

/-- Lookup in the ordered field map. -/
def dictLookup (d : Dict) (name : FieldName) : Option Value :=
  match d with
  | [] => none
  | (k, v) :: rest => if k = name then some v else dictLookup rest name

/-- name in d. -/
def dictContains (d : Dict) (name : FieldName) : Bool :=
  (dictLookup d name).isSome

/-- Python dict assignment d[k] = v: overwriting keeps the key's original
    insertion position; a new key is appended. -/
def dictInsert (d : Dict) (name : FieldName) (v : Value) : Dict :=
  match d with
  | [] => [(name, v)]
  | (k, w) :: rest =>
    if k = name then (k, v) :: rest else (k, w) :: dictInsert rest name v

/-- BibData.__setitem__: validate, and on success store the value, warning
    first when the field is already present (overwrite policy). -/
def setItem (fields : List Char → Option FieldSpec) (d : Dict) (name : FieldName)
    (value : Value) : Except PyErr (Dict × List Diag) :=
  match bdCheck fields value name with
  | .exn e => .error e
  | .fail ds => .ok (d, ds)
  | .ok v =>
    if dictContains d name then .ok (dictInsert d name v, [.duplicateField name])
    else .ok (dictInsert d name v, [])

/-- The loop of BibData.__init__ over a raw dictionary: validate each pair and
    store only accepted values; warnings accumulate; exceptions abort. -/
def recordInitAux (fields : List Char → Option FieldSpec) :
    Dict → List Diag → List (FieldName × Value) → Except PyErr (Dict × List Diag)
  | d, ds, [] => .ok (d, ds)
  | d, ds, (k, v) :: rest =>
    match bdCheck fields v k with
    | .exn e => .error e
    | .fail ds2 => recordInitAux fields d (ds ++ ds2) rest
    | .ok w => recordInitAux fields (dictInsert d k w) ds rest

/-- BibData.__init__ from raw key/value data. -/
def recordInit (fields : List Char → Option FieldSpec)
    (data : List (FieldName × Value)) : Except PyErr (Dict × List Diag) :=
  recordInitAux fields [] [] data

/- ===== The BibTeX schema (BibTeXData.__BibTexFields) ===== -/

/-- datetime.date.today().year at verification time (upper bound of year). -/
def todayYear : Int := 2026

def contentTypeValues : List Value :=
  [Value.vStr (chars "article"), Value.vStr (chars "book"),
   Value.vStr (chars "booklet"), Value.vStr (chars "inbook"),
   Value.vStr (chars "incollection"), Value.vStr (chars "inproceedings"),
   Value.vStr (chars "manual"), Value.vStr (chars "mastersthesis"),
   Value.vStr (chars "misc"), Value.vStr (chars "phdthesis"),
   Value.vStr (chars "proceedings"), Value.vStr (chars "techreport"),
   Value.vStr (chars "unpublished")]

/-- The default specification returned for unofficial user-defined fields. -/
def freeTextSpec : FieldSpec := { ty := .cStr }

/-- The __fields table of BibTeXData, in source order (documentation strings
    omitted: they do not influence validation). -/
def bibtexFieldsAssoc : List (FieldName × FieldSpec) :=
  [(chars "address", { ty := .cStr }),
   (chars "annote", { ty := .cStr }),
   (chars "author", { ty := .cAuthorList }),
   (chars "booktitle", { ty := .cStr }),
   (chars "chapter", { ty := .cInt, min := some 1 }),
   (chars "content_type", { ty := .cStr, values := some contentTypeValues }),
   (chars "crossref", { ty := .cStr }),
   (chars "doi", { ty := .cDOI }),
   (chars "edition", { ty := .cStr }),
   (chars "editor", { ty := .cStr }),
   (chars "howpublished", { ty := .cStr }),
   (chars "institution", { ty := .cStr }),
   (chars "journal", { ty := .cStr }),
   (chars "key", { ty := .cStr }),
   (chars "month", { ty := .cStr, validator := some .monthV }),
   (chars "note", { ty := .cStr }),
   (chars "number", { ty := .cInt, min := some 1 }),
   (chars "organization", { ty := .cStr }),
   (chars "pages", { ty := .cPageRange }),
   (chars "publisher", { ty := .cStr }),
   (chars "school", { ty := .cStr }),
   (chars "series", { ty := .cStr }),
   (chars "title", { ty := .cStr }),
   (chars "type", { ty := .cStr }),
   (chars "volume", { ty := .cInt, min := some 1 }),
   (chars "year", { ty := .cInt, max := some todayYear })]

/-- First association for a key. -/
def assocFind {β : Type} : List (FieldName × β) → FieldName → Option β
  | [], _ => none
  | (k, v) :: rest, name => if k = name then some v else assocFind rest name

/-- Python str.isalpha() on the ASCII range. -/
def pyIsAlpha (l : List Char) : Bool := !l.isEmpty && l.all Char.isAlpha

/-- BibTexFields.__getitem__: the table, with purely-alphabetic unknown names
    resolving to the free-text default (open-extension rule). -/
def bibtexFields (name : FieldName) : Option FieldSpec :=
  match assocFind bibtexFieldsAssoc name with
  | some f => some f
  | none => if pyIsAlpha name then some freeTextSpec else none

/- ===== The BibTeX parser (bibtex.BibFile) ===== -/

/-- BibFile.__cleanGroup: every maximal run of whitespace inside a group is
    collapsed to a single space (re.sub of \s+ with a space). -/
def collapseWsAux : Bool → List Char → List Char
  | _, [] => []
  | prevSpace, c :: rest =>
    if pySpace c then
      if prevSpace then collapseWsAux true rest
      else ' ' :: collapseWsAux true rest
    else c :: collapseWsAux false rest

def collapseWs (l : List Char) : List Char := collapseWsAux false l

/-- BibFile.parseGroup: arguments are fuel, the accumulated group text, the
    escaped flag, the commented flag and the remaining stream; the result is
    the cleaned group text, the diagnostics and the remaining stream.  A
    backslash sets the escape flag and is itself appended; the next character
    is then appended literally; an unescaped percent discards to end of line;
    an unescaped closing brace ends the group; an unescaped opening brace is
    parsed recursively and spliced back surrounded by literal braces.  Fuel of
    at least the stream length plus one is never exhausted. -/
def parseGroupF : Nat → List Char → Bool → Bool → List Char →
    (List Char × List Diag × List Char)
  | 0, g, _, _, s => (collapseWs g, [], s)
  | _ + 1, g, _, _, [] => (collapseWs g, [.groupEndOfInput], [])
  | fuel + 1, g, escaped, commented, c :: rest =>
    if commented then
      (if c == '\n' then parseGroupF fuel g escaped false rest
       else parseGroupF fuel g escaped true rest)
    else if escaped then parseGroupF fuel (g ++ [c]) false false rest
    else if c == '\\' then parseGroupF fuel (g ++ [c]) true false rest
    else if c == '%' then parseGroupF fuel g false true rest
    else if c == '\x7d' then (collapseWs g, [], rest)
    else if c == '\x7b' then
      match parseGroupF fuel [] false false rest with
      | (inner, ds, rest2) =>
        match parseGroupF fuel (g ++ ['\x7b'] ++ inner ++ ['\x7d']) false false rest2 with
        | (out, ds2, rest3) => (out, ds ++ ds2, rest3)
    else parseGroupF fuel (g ++ [c]) false false rest

/-- The modes of BibFile.parseEntry, with their accumulators.  The comment
    mode stores the mode to resume (the source keeps the accumulators in
    variables that a comment leaves untouched, which this models). -/
inductive EMode
  | outE
  | commentE (prev : EMode)
  | fieldNameE (acc : List Char)
  | fieldValueE (name acc : List Char)

/-- The loop of BibFile.parseEntry: arguments are fuel, the record built so
    far, the diagnostics, the escaped flag, the mode, and the stream; the
    result carries the record, diagnostics, remaining stream and whether the
    entry ended at end of input.  In FIELD_VALUE the closing-brace test comes
    before the escape handling, so a closing brace always stores the pair and
    ends the entry; a backslash toggles the escaped flag (nothing resets it);
    in OUTSIDE the source compares instead of assigning the comment mode, so a
    percent sign is skipped without starting a comment. -/
def parseEntryF : Nat → Dict → List Diag → Bool → EMode → List Char →
    Except PyErr (Dict × List Diag × List Char × Bool)
  | 0, d, ds, _, _, s => .ok (d, ds, s, false)
  | _ + 1, d, ds, _, _, [] => .ok (d, ds ++ [.entryEndOfInput], [], true)
  | fuel + 1, d, ds, escaped, mode, c :: rest =>
    match mode with
    | .outE =>
      if c == '\x7d' then .ok (d, ds, rest, false)
      else if pySpace c then parseEntryF fuel d ds escaped .outE rest
      else if c == '%' then parseEntryF fuel d ds escaped .outE rest
      else if c.isAlphanum then parseEntryF fuel d ds escaped (.fieldNameE [c]) rest
      else parseEntryF fuel d ds escaped .outE rest
    | .commentE prev =>
      if c == '\n' then parseEntryF fuel d ds escaped prev rest
      else parseEntryF fuel d ds escaped (.commentE prev) rest
    | .fieldNameE acc =>
      if c == '\x7d' then
        match setItem bibtexFields d (chars "key") (.vStr (pyStrip acc)) with
        | .error e => .error e
        | .ok (d2, ds2) => .ok (d2, ds ++ ds2, rest, false)
      else if c == '=' then parseEntryF fuel d ds escaped (.fieldValueE acc []) rest
      else if c == ',' then
        match setItem bibtexFields d (chars "key") (.vStr (pyStrip acc)) with
        | .error e => .error e
        | .ok (d2, ds2) => parseEntryF fuel d2 (ds ++ ds2) escaped .outE rest
      else if c == '%' then
        parseEntryF fuel d ds escaped (.commentE (.fieldNameE (acc ++ [' ']))) rest
      else parseEntryF fuel d ds escaped (.fieldNameE (acc ++ [c])) rest
    | .fieldValueE name acc =>
      if c == '\x7d' then
        match setItem bibtexFields d (pyStrip name) (.vStr (pyStrip acc)) with
        | .error e => .error e
        | .ok (d2, ds2) => .ok (d2, ds ++ ds2, rest, false)
      else if c == '\\' then
        parseEntryF fuel d ds (!escaped) (.fieldValueE name acc) rest
      else if c == ',' && !escaped then
        match setItem bibtexFields d (pyStrip name) (.vStr (pyStrip acc)) with
        | .error e => .error e
        | .ok (d2, ds2) => parseEntryF fuel d2 (ds ++ ds2) escaped .outE rest
      else if c == '%' && !escaped then
        parseEntryF fuel d ds escaped (.commentE (.fieldValueE name acc)) rest
      else if c == '\x7b' && !escaped then
        match parseGroupF fuel [] false false rest with
        | (g, gds, rest2) =>
          parseEntryF fuel d (ds ++ gds) escaped (.fieldValueE name (acc ++ g)) rest2
      else parseEntryF fuel d ds escaped (.fieldValueE name (acc ++ [c])) rest

/-- BibFile.parseEntry on a stream, given the already-captured entry type: the
    record starts as BibTeXData with the validated content_type field. -/
def parseEntry (entryType : List Char) (s : List Char) :
    Except PyErr (Dict × List Diag × List Char × Bool) :=
  match recordInit bibtexFields [(chars "content_type", .vStr entryType)] with
  | .error e => .error e
  | .ok (d, ds) => parseEntryF (s.length + 1) d ds false .outE s

/-- The modes of BibFile.parseFile. -/
inductive FMode
  | outF
  | entryTypeF (acc : List Char)
  | commentF (prev : FMode)

/-- The loop of BibFile.parseFile: skip whitespace, start an entry type at @,
    discard percent comments to end of line, warn about any other character;
    a brace after an entry type hands over to the entry parser and appends the
    resulting record.  End of input simply returns (also inside an entry type,
    where no diagnostic is emitted at file scope). -/
def parseFileF : Nat → List Dict → List Diag → FMode → List Char →
    Except PyErr (List Dict × List Diag)
  | 0, rs, ds, _, _ => .ok (rs, ds)
  | _ + 1, rs, ds, _, [] => .ok (rs, ds)
  | fuel + 1, rs, ds, mode, c :: rest =>
    match mode with
    | .outF =>
      if pySpace c then parseFileF fuel rs ds .outF rest
      else if c == '@' then parseFileF fuel rs ds (.entryTypeF []) rest
      else if c == '%' then parseFileF fuel rs ds (.commentF .outF) rest
      else parseFileF fuel rs (ds ++ [.unexpectedCharacter c]) .outF rest
    | .commentF prev =>
      if c == '\n' then parseFileF fuel rs ds prev rest
      else parseFileF fuel rs ds (.commentF prev) rest
    | .entryTypeF acc =>
      if c == '\x7b' then
        match recordInit bibtexFields
            [(chars "content_type", .vStr (pyLower (pyStrip acc)))] with
        | .error e => .error e
        | .ok (d0, ds0) =>
          match parseEntryF fuel d0 ds0 false .outE rest with
          | .error e => .error e
          | .ok (d, eds, rest2, _) =>
            parseFileF fuel (rs ++ [d]) (ds ++ eds) .outF rest2
      else if c == '%' then parseFileF fuel rs ds (.commentF (.entryTypeF acc)) rest
      else parseFileF fuel rs ds (.entryTypeF (acc ++ [c])) rest

/-- BibFile.parseFile on a whole stream. -/
def parseFile (s : List Char) : Except PyErr (List Dict × List Diag) :=
  parseFileF (s.length + 1) [] [] .outF s

/- ===== The BibTeX writer (bibtex.BibFile.write) ===== -/

/-- One entry type of BibFile.bibTypes: required and optional field lists. -/
structure BibType where
  required : List FieldName
  optional : List FieldName
deriving DecidableEq

def bibTypesAssoc : List (FieldName × BibType) :=
  [(chars "article",
    ⟨[chars "author", chars "title", chars "journal", chars "year", chars "volume"],
     [chars "number", chars "pages", chars "month", chars "doi"]⟩),
   (chars "book",
    ⟨[chars "author", chars "title", chars "publisher", chars "year"],
     [chars "editor", chars "volume", chars "number", chars "series",
      chars "address", chars "edition", chars "month"]⟩),
   (chars "booklet",
    ⟨[chars "title"],
     [chars "author", chars "howpublished", chars "address", chars "month",
      chars "year"]⟩),
   (chars "inbook",
    ⟨[chars "author", chars "title", chars "pages", chars "publisher", chars "year"],
     [chars "editor", chars "chapter", chars "volume", chars "number",
      chars "series", chars "type", chars "address", chars "edition",
      chars "month"]⟩),
   (chars "incollection",
    ⟨[chars "author", chars "title", chars "booktitle", chars "publisher",
      chars "year"],
     [chars "editor", chars "volume", chars "number", chars "series",
      chars "type", chars "chapter", chars "pages", chars "address",
      chars "edition", chars "month"]⟩),
   (chars "inproceedings",
    ⟨[chars "author", chars "title", chars "booktitle", chars "year"],
     [chars "editor", chars "volume", chars "number", chars "series",
      chars "pages", chars "address", chars "month", chars "organization",
      chars "publisher"]⟩),
   (chars "manual",
    ⟨[chars "title"],
     [chars "author", chars "organization", chars "address", chars "edition",
      chars "month", chars "year"]⟩),
   (chars "mastersthesis",
    ⟨[chars "author", chars "title", chars "school", chars "year"],
     [chars "type", chars "address", chars "month"]⟩),
   (chars "misc",
    ⟨[],
     [chars "author", chars "title", chars "howpublished", chars "month",
      chars "year"]⟩),
   (chars "phdthesis",
    ⟨[chars "author", chars "title", chars "school", chars "year"],
     [chars "type", chars "address", chars "month"]⟩),
   (chars "proceedings",
    ⟨[chars "title", chars "year"],
     [chars "editor", chars "volume", chars "number", chars "series",
      chars "address", chars "month", chars "publisher", chars "organization"]⟩),
   (chars "techreport",
    ⟨[chars "author", chars "title", chars "institution", chars "year"],
     [chars "type", chars "number", chars "address", chars "month"]⟩),
   (chars "unpublished",
    ⟨[chars "author", chars "title"],
     [chars "month", chars "year"]⟩)]

/-- BibFile.fieldAliases, in source order. -/
def fieldAliasesAssoc : List (FieldName × List FieldName) :=
  [(chars "address", [chars "conference_location"]),
   (chars "author", [chars "authors"]),
   (chars "booktitle", [chars "publication_title"]),
   (chars "chapter", []),
   (chars "crossref", []),
   (chars "doi", []),
   (chars "edition", []),
   (chars "editor", []),
   (chars "howpublished", []),
   (chars "institution", []),
   (chars "journal", [chars "publication_title"]),
   (chars "month", [chars "publication_month", chars "conference_month"]),
   (chars "number", [chars "issue", chars "is_number"]),
   (chars "organization", []),
   (chars "pages", []),
   (chars "publisher", []),
   (chars "school", []),
   (chars "series", []),
   (chars "title", []),
   (chars "type", []),
   (chars "volume", []),
   (chars "year", [chars "publication_year", chars "conference_year"])]

/-- First alias of the list present in the record. -/
def getFieldIn (d : Dict) : List FieldName → Option FieldName
  | [] => none
  | a :: rest => if dictContains d a then some a else getFieldIn d rest

/-- BibFile.__getField: the canonical name when present, otherwise the first
    present alias, otherwise nothing — with a missing-required-field warning
    when the field was required. -/
def getField (d : Dict) (field : FieldName) (required : Bool) :
    Option FieldName × List Diag :=
  if dictContains d field then (some field, [])
  else
    match assocFind fieldAliasesAssoc field with
    | some aliases =>
      (match getFieldIn d aliases with
       | some a => (some a, [])
       | none => if required then (none, [.missingRequiredField field]) else (none, []))
    | none => if required then (none, [.missingRequiredField field]) else (none, [])

/-- The initials of the remaining authors, in order. -/
def initialsOf : List Author → Except PyErr (List Char)
  | [] => .ok []
  | a :: rest =>
    match authorInitial a with
    | .error e => .error e
    | .ok c =>
      match initialsOf rest with
      | .error e => .error e
      | .ok cs => .ok (c :: cs)

/-- The year and publication-code tail of BibFile.__genKey: both lookups are
    guarded by KeyError handlers (an unresolved name indexes the record with
    None, and the KeyError is caught).  The publication code is appended by
    string concatenation, so a non-string stored value raises TypeError. -/
def genKeyTail (d : Dict) (key1 : List Char) : Except PyErr (List Char) :=
  let key2 := key1 ++
    (match (getField d (chars "year") false).1 with
     | none => []
     | some yf =>
       match dictLookup d yf with
       | none => []
       | some yv => pyStr yv)
  match (getField d (chars "publication_code") false).1 with
  | none => .ok key2
  | some pf =>
    match dictLookup d pf with
    | none => .ok key2
    | some (.vStr s) => .ok (key2 ++ s)
    | some _ => .error .typeError

/-- The author part of BibFile.__genKey applied to the resolved author value:
    the first author's surname followed by the remaining authors' initials;
    indexing or subscripting a non-author-list value raises. -/
def genKeyOf (d : Dict) (v : Value) : Except PyErr (List Char) :=
  match v with
  | .vAuthorList [] => .error .indexError
  | .vAuthorList (a0 :: rest) =>
    (match initialsOf rest with
     | .error e => .error e
     | .ok inits => genKeyTail d (a0.name ++ inits))
  | .vStr [] => .error .indexError
  | _ => .error .typeError

/-- BibFile.__genKey: the author lookup is not guarded, so an unresolvable
    author field indexes the record with None and the KeyError escapes. -/
def genKey (d : Dict) : Except PyErr (List Char) :=
  match (getField d (chars "author") false).1 with
  | none => .error .keyError
  | some f =>
    match dictLookup d f with
    | none => .error .keyError
    | some v => genKeyOf d v

/-- One written line of output. -/
inductive OutLine
  | header (ty key : List Char)
  | fieldLine (name value : List Char)
  | footer
deriving DecidableEq

def pyUpper (l : List Char) : List Char := l.map Char.toUpper

/-- The required/optional loops of BibFile.write: resolve each schema field,
    emit it under its canonical name with the stored value, and extend the
    fieldsDone list with the resolved name. -/
def writeFields (d : Dict) (req : Bool) :
    List FieldName → List FieldName → (List OutLine × List Diag × List FieldName)
  | [], done => ([], [], done)
  | f :: fs, done =>
    match getField d f req with
    | (some field, ds1) =>
      (match dictLookup d field with
       | some v =>
         match writeFields d req fs (done ++ [field]) with
         | (ls, ds, done2) => (.fieldLine f (pyStr v) :: ls, ds1 ++ ds, done2)
       | none =>
         match writeFields d req fs done with
         | (ls, ds, done2) => (ls, ds1 ++ ds, done2))
    | (none, ds1) =>
      match writeFields d req fs done with
      | (ls, ds, done2) => (ls, ds1 ++ ds, done2)

/-- The inner alias loop of BibFile.write: stop silently at an alias already
    done, emit the first alias present in the record, skip absent aliases. -/
def aliasEmit (d : Dict) (done : List FieldName) (field : FieldName) :
    List FieldName → List OutLine
  | [] => []
  | a :: rest =>
    if a ∈ done then []
    else
      match dictLookup d a with
      | some v => [.fieldLine field (pyStr v)]
      | none => aliasEmit d done field rest

/-- The alias pass of BibFile.write (which does not extend fieldsDone). -/
def aliasPass (d : Dict) (done : List FieldName) :
    List (FieldName × List FieldName) → List OutLine
  | [] => []
  | (field, aliases) :: rest =>
    aliasEmit d done field aliases ++ aliasPass d done rest

/-- The final pass of BibFile.write: any record field not yet done is written
    verbatim, in record order. -/
def remainingPass (done : List FieldName) : Dict → List OutLine
  | [] => []
  | (k, v) :: rest =>
    if k ∈ done then remainingPass done rest
    else .fieldLine k (pyStr v) :: remainingPass done rest

/-- The field passes of BibFile.write for one record, after the header data is
    resolved: required fields, optional fields, alias pass, remaining fields,
    footer; the diagnostics are those of the two schema passes. -/
def writeBody (d : Dict) (ct key : List Char) (bt : BibType) :
    List OutLine × List Diag :=
  let r := writeFields d true bt.required [chars "content_type"]
  let o := writeFields d false bt.optional r.2.2
  (.header (pyUpper ct) key :: r.1 ++ o.1 ++
     aliasPass d o.2.2 fieldAliasesAssoc ++ remainingPass o.2.2 d ++ [.footer],
   r.2.1 ++ o.2.1)

/-- The body of BibFile.write for one record: header (entry type uppercased,
    generated citation key), then the field passes.  A record without a
    content_type raises KeyError; a non-string content_type has no upper()
    (modelled typeError); an unknown content_type raises KeyError at the
    bibTypes lookup. -/
def writeRecord (d : Dict) : Except PyErr (List OutLine × List Diag) :=
  match dictLookup d (chars "content_type") with
  | none => .error .keyError
  | some (.vStr ct) =>
    (match genKey d with
     | .error e => .error e
     | .ok key =>
       match assocFind bibTypesAssoc ct with
       | none => .error .keyError
       | some bt => .ok (writeBody d ct key bt))
  | some _ => .error .typeError

/-- BibFile.write over the whole collection, in order. -/
def writeAll : List Dict → Except PyErr (List OutLine × List Diag)
  | [] => .ok ([], [])
  | d :: rest =>
    match writeRecord d with
    | .error e => .error e
    | .ok (ls, ds) =>
      match writeAll rest with
      | .error e => .error e
      | .ok (ls2, ds2) => .ok (ls ++ ls2, ds ++ ds2)

/- ===== Object identity of the record map (BibData.__init__ copy) ===== -/

/-- A heap of dictionaries; a BibData object holds an index into it. -/
abbrev Heap := List Dict

/-- BibData.__init__ given another BibData: the new object's map is the same
    dict object (self.__data = data.__data), so the copy holds the same heap
    reference. -/
def bibDataCopy (h : Heap) (p : Nat) : Heap × Nat := (h, p)

/-- BibData.__init__ given raw data: allocate a fresh dict. -/
def bibDataNew (fields : List Char → Option FieldSpec) (h : Heap)
    (data : List (FieldName × Value)) : Except PyErr (Heap × Nat × List Diag) :=
  match recordInit fields data with
  | .error e => .error e
  | .ok (d, ds) => .ok (h ++ [d], h.length, ds)

/-- BibData.__setitem__ through an object reference: mutates the shared dict. -/
def setItemRef (fields : List Char → Option FieldSpec) (h : Heap) (p : Nat)
    (name : FieldName) (value : Value) : Except PyErr (Heap × List Diag) :=
  match h.get? p with
  | none => .error .keyError
  | some d =>
    match setItem fields d name value with
    | .error e => .error e
    | .ok (d2, ds) => .ok (h.set p d2, ds)

/-- Field lookup through an object reference. -/
def lookupRef (h : Heap) (p : Nat) (name : FieldName) : Option Value :=
  match h.get? p with
  | none => none
  | some d => dictLookup d name

/- ===== The collection constructor (bibdata.BibDataSet.__init__) ===== -/

/-- The comprehension [self.dataType(d) for d in data]: constructor results in
    order, or the first exception. -/
def mapCtor {α β : Type} (ctor : α → Except PyErr β) : List α → Except PyErr (List β)
  | [] => .ok []
  | x :: rest =>
    match ctor x with
    | .error e => .error e
    | .ok y =>
      match mapCtor ctor rest with
      | .error e => .error e
      | .ok ys => .ok (y :: ys)

/-- BibDataSet.__init__ from a list of raw elements, with the element
    constructor (the dataType class attribute) as a parameter: the whole
    comprehension runs under one try, and a KeyError from any element's
    constructor replaces the entire collection with the empty list; other
    exceptions propagate. -/
def dataSetInit {α β : Type} (ctor : α → Except PyErr β) (data : List α) :
    Except PyErr (List β) :=
  match mapCtor ctor data with
  | .ok l => .ok l
  | .error .keyError => .ok []
  | .error e => .error e

/- ===== Specification-side definitions and concrete fixtures ===== -/

def c4Heap : Heap := [[(chars "content_type", .vStr (chars "article"))]]

def goodRec : Dict := [(chars "title", .vStr (chars "A"))]

def noAuthorRec : Dict := [(chars "content_type", .vStr (chars "article")),
                           (chars "title", .vStr (chars "T"))]


def c4Heap2 : Heap := [[(chars "content_type", .vStr (chars "article")),
                        (chars "title", .vStr (chars "T"))]]


/-- An element constructor that raises KeyError on a structurally invalid raw
    element, as ieeexplore's Result does when an article's authors value lacks
    the authors key (or an author lacks full_name): the invalid element is
    modelled as none. -/
def keyErrorCtor : Option Dict → Except PyErr Dict
  | some d => .ok d
  | none => .error .keyError


/-- The author initial as specified: the first character of the surname,
    uppercased (empty for an empty surname). -/
def specInitial (a : Author) : List Char := (a.name.take 1).map Char.toUpper

/-- The citation key as specified: surname of the first author, then the
    initial of each remaining author in order, then the year if present, then
    the publication code if present, with no separators. -/
def specCitationKey (authors : List Author) (year pubCode : Option (List Char)) :
    List Char :=
  match authors with
  | [] => []
  | a0 :: rest =>
    a0.name ++ (rest.map specInitial).flatten ++ year.getD [] ++ pubCode.getD []

/-- The string stored for an alias-resolved field, when the field resolves to
    a present name. -/
def resolvedStr (d : Dict) (name : FieldName) : Option (List Char) :=
  match (getField d name false).1 with
  | none => none
  | some f => (dictLookup d f).map pyStr

def smithInput : List Char := chars "@ARTICLE\x7bkey1, author = \x7bSmith, John\x7d, title = \x7bA Title\x7d, journal = \x7bJ\x7d, year = \x7b2020\x7d, volume = \x7b1\x7d\x7d"

def smithRec : Dict :=
  [(chars "content_type", .vStr (chars "article")),
   (chars "key", .vStr (chars "key1")),
   (chars "author", .vAuthorList [⟨chars "Smith", [chars "John"]⟩]),
   (chars "title", .vStr (chars "A Title")),
   (chars "journal", .vStr (chars "J")),
   (chars "year", .vInt 2020),
   (chars "volume", .vInt 1)]

def smithLines : List OutLine :=
  [.header (chars "ARTICLE") (chars "Smith2020"),
   .fieldLine (chars "author") (chars "Smith, John"),
   .fieldLine (chars "title") (chars "A Title"),
   .fieldLine (chars "journal") (chars "J"),
   .fieldLine (chars "year") (chars "2020"),
   .fieldLine (chars "volume") (chars "1"),
   .fieldLine (chars "key") (chars "key1"),
   .footer]

/-- The token rule as specified: split on spaces, trim each token, discard
    tokens of length at most 1. -/
def specTokens (l : List Char) : List (List Char) :=
  ((pySplitChar ' ' l).map pyStrip).filter (fun t => !(decide (t.length ≤ 1)))

/-- Author construction from a string as specified: with no comma the token
    rule applies to the whole string, the last surviving token is the surname
    and the rest, in order, are the forenames; with exactly one comma the
    trimmed text before the comma is the surname and the token rule applies to
    the text after it; any other comma count fails construction. -/
def specAuthorFromString (value : List Char) : Except PyErr Author :=
  if value.count ',' = 0 then
    match (specTokens value).getLast? with
    | some n => .ok ⟨n, (specTokens value).dropLast⟩
    | none => .error .indexError
  else if value.count ',' = 1 then
    match pySplitChar ',' value with
    | [p0, p1] => .ok ⟨pyStrip p0, specTokens p1⟩
    | _ => .error .valueError
  else .error .valueError

/- ===== Helper lemmas ===== -/

deriving instance DecidableEq for Except

theorem dictLookup_insert_self (d : Dict) (name : FieldName) (v : Value) :
    dictLookup (dictInsert d name v) name = some v := by
  induction d with
  | nil => simp [dictInsert, dictLookup]
  | cons kv rest ih =>
    obtain ⟨k, w⟩ := kv
    by_cases h : k = name <;> simp [dictInsert, dictLookup, h, ih]

/- ===== Claim C1 ===== -/

/-- Claim C1: the validation pipeline is a soft failure.  Whenever __check
    emits diagnostics, __setitem__ leaves the record unchanged and reports
    exactly those diagnostics, and the construction loop of __init__ skips the
    field and continues with the remaining fields; in particular the volume
    field of the BibTeX schema, declared with min 1, given raw value "0",
    fails with exactly one below-minimum diagnostic. -/
theorem validation_soft_failure
    (fields : List Char → Option FieldSpec) (name : FieldName) (value : Value)
    (ds : List Diag) (h : bdCheck fields value name = .fail ds) :
    (∀ d : Dict, setItem fields d name value = .ok (d, ds)) ∧
    (∀ (d : Dict) (ds0 : List Diag) (rest : List (FieldName × Value)),
      recordInitAux fields d ds0 ((name, value) :: rest) =
        recordInitAux fields d (ds0 ++ ds) rest) ∧
    bdCheck bibtexFields (.vStr (chars "0")) (chars "volume") =
      .fail [.belowMinimum (chars "volume")] := by
  refine ⟨fun d => ?_, fun d ds0 rest => ?_, by decide⟩
  · simp [setItem, h]
  · simp [recordInitAux, h]

/-- Witness for C1: the volume field with raw value "0" is rejected with one
    below-minimum diagnostic by insertion and skipped by construction. -/
theorem validation_soft_failure_witness :
    setItem bibtexFields [] (chars "volume") (.vStr (chars "0")) =
      .ok ([], [.belowMinimum (chars "volume")]) ∧
    recordInitAux bibtexFields [] []
        [(chars "volume", .vStr (chars "0")), (chars "title", .vStr (chars "T"))] =
      recordInitAux bibtexFields [] ([] ++ [.belowMinimum (chars "volume")])
        [(chars "title", .vStr (chars "T"))] :=
  have h := validation_soft_failure bibtexFields (chars "volume")
    (.vStr (chars "0")) [.belowMinimum (chars "volume")] (by decide)
  ⟨h.1 [], h.2.1 [] [] [(chars "title", .vStr (chars "T"))]⟩

/- ===== Claim C10 ===== -/

/-- Claim C10: inserting a value for a field already present in the record
    reports a diagnostic and overwrites the stored value when the new value
    passes the validation pipeline, and leaves the original value untouched
    when the new value fails validation (overwrite-with-diagnostic policy). -/
theorem duplicate_field_overwrite
    (fields : List Char → Option FieldSpec) (d : Dict) (name : FieldName)
    (v1 : Value) (hpresent : dictLookup d name = some v1) :
    (∀ value w, bdCheck fields value name = .ok w →
      setItem fields d name value =
        .ok (dictInsert d name w, [.duplicateField name]) ∧
      dictLookup (dictInsert d name w) name = some w) ∧
    (∀ value ds, bdCheck fields value name = .fail ds →
      setItem fields d name value = .ok (d, ds) ∧
      dictLookup d name = some v1) := by
  constructor
  · intro value w h
    refine ⟨?_, dictLookup_insert_self d name w⟩
    simp [setItem, h, dictContains, hpresent]
  · intro value ds h
    exact ⟨by simp [setItem, h], hpresent⟩


/- ===== Claim C4 ===== -/



/-- Claim C4 counterexample: constructing a Record as a copy of another yields
    the same map reference, and inserting a valid field through the copy makes
    the field visible through the original record, whose mapping the claim
    said would stay unchanged. -/
theorem record_copy_cex :
    bibDataCopy c4Heap 0 = (c4Heap, 0) ∧
    lookupRef c4Heap 0 (chars "title") = none ∧
    setItemRef bibtexFields (bibDataCopy c4Heap 0).1 (bibDataCopy c4Heap 0).2
        (chars "title") (.vStr (chars "T")) = .ok (c4Heap2, []) ∧
    lookupRef c4Heap2 0 (chars "title") = some (.vStr (chars "T")) :=
  ⟨rfl, by decide, by decide, by decide⟩

/-- Claim C4 amended: the copy constructor shares the validated map instead of
    snapshotting it — the copy is a live view, so a field inserted through the
    copy resolves through the original record to the inserted value. -/
theorem record_copy_amended
    (fields : List Char → Option FieldSpec) (h : Heap) (p : Nat)
    (name : FieldName) (value w : Value)
    (hcheck : bdCheck fields value name = .ok w) (hp : p < h.length) :
    bibDataCopy h p = (h, p) ∧
    ∃ d2 ds, setItemRef fields (bibDataCopy h p).1 (bibDataCopy h p).2 name value =
        .ok (h.set p d2, ds) ∧
      lookupRef (h.set p d2) p name = some w := by
  refine ⟨rfl, ?_⟩
  set d0 := h.get ⟨p, hp⟩ with hd0
  have hget : h.get? p = some d0 := List.get?_eq_get hp
  have hset : (h.set p (dictInsert d0 name w)).get? p =
      some (dictInsert d0 name w) := by
    rw [List.get?_eq_getElem?]
    exact List.getElem?_set_eq_of_lt _ hp
  have hlook : lookupRef (h.set p (dictInsert d0 name w)) p name = some w := by
    simp only [lookupRef, hset]
    exact dictLookup_insert_self _ name w
  have hstep : ∀ ds1, setItem fields d0 name value = .ok (dictInsert d0 name w, ds1) →
      setItemRef fields (bibDataCopy h p).1 (bibDataCopy h p).2 name value =
        .ok (h.set p (dictInsert d0 name w), ds1) := by
    intro ds1 hsi
    simp only [bibDataCopy, setItemRef, hget, hsi]
  by_cases hc : dictContains d0 name
  · exact ⟨dictInsert d0 name w, [.duplicateField name],
      hstep _ (by simp [setItem, hcheck, hc]), hlook⟩
  · exact ⟨dictInsert d0 name w, [],
      hstep _ (by simp [setItem, hcheck, hc]), hlook⟩


/- ===== Claim C5 ===== -/



/-- Claim C5 counterexample: with a two-element input whose second element
    fails structurally (KeyError from the element constructor), the resulting
    collection is empty instead of retaining the first element. -/
theorem dataset_indep_cex :
    dataSetInit keyErrorCtor [some goodRec, none] = .ok [] ∧
    dataSetInit keyErrorCtor [some goodRec, none] ≠ .ok [goodRec] := by
  constructor
  · rfl
  · intro hcontra
    rw [show dataSetInit keyErrorCtor [some goodRec, none] = .ok [] from rfl] at hcontra
    simp at hcontra

/-- Claim C5 amended: the comprehension of BibDataSet.__init__ runs under a
    single KeyError handler, so a KeyError from any element's constructor
    empties the whole collection (the construction itself still succeeds);
    only when every element constructs are the elements retained, and then all
    of them are, in arrival order. -/
theorem dataset_keyerror_amended {α β : Type} (ctor : α → Except PyErr β)
    (data : List α) :
    (mapCtor ctor data = .error .keyError → dataSetInit ctor data = .ok []) ∧
    (∀ l, mapCtor ctor data = .ok l → dataSetInit ctor data = .ok l) ∧
    ((∀ x ∈ data, ∃ y, ctor x = .ok y) →
      ∃ l, mapCtor ctor data = .ok l ∧ dataSetInit ctor data = .ok l ∧
        l.length = data.length) := by
  refine ⟨fun h => by simp [dataSetInit, h], fun l h => by simp [dataSetInit, h], ?_⟩
  intro hall
  induction data with
  | nil => exact ⟨[], rfl, rfl, rfl⟩
  | cons x rest ih =>
    obtain ⟨y, hy⟩ := hall x (List.mem_cons_self x rest)
    obtain ⟨l, hl, _, hlen⟩ := ih (fun z hz => hall z (List.mem_cons_of_mem x hz))
    refine ⟨y :: l, ?_, ?_, by simp [hlen]⟩
    · simp [mapCtor, hy, hl]
    · simp [dataSetInit, mapCtor, hy, hl]

/-- Witness for C5 amended: the failing two-element input yields the empty
    collection, and the same input without its structurally invalid element
    retains its single element. -/
theorem dataset_keyerror_amended_witness :
    dataSetInit keyErrorCtor [some goodRec, none] = .ok [] ∧
    dataSetInit keyErrorCtor [some goodRec] = .ok [goodRec] :=
  ⟨(dataset_keyerror_amended keyErrorCtor [some goodRec, none]).1 (by rfl),
   (dataset_keyerror_amended keyErrorCtor [some goodRec]).2.1 [goodRec] (by rfl)⟩

/- ===== Claim C7 ===== -/

/-- Claim C7: the stream "@ARTICLE\x7bk,pages=123," ends while the parser is
    inside the entry, and the claim promises one end-of-input diagnostic, the
    partial record and termination without raising; instead the stored pages
    value "123" matches the page-range pattern without an end group, the
    source computes int(None) whose TypeError is not the KeyError its handler
    expects, and the exception escapes the whole parse. -/
theorem parse_pages_crash :
    pageRangeParse (chars "123") = some (123, none) ∧
    parseFile (chars "@ARTICLE\x7bk,pages=123,") = .error .typeError := by
  exact ⟨by decide, by decide⟩

/- ===== Claim C6 counterexample ===== -/

/-- Claim C6 counterexample: the doi field of the BibTeX schema accepts the
    raw value "10.1234/5678", producing a typed DOI value, but validating that
    typed value again raises (re.fullmatch of a non-string), instead of
    returning the same value. -/
theorem validate_idem_cex :
    bibtexFields (chars "doi") = some { ty := .cDOI } ∧
    bdCheck bibtexFields (.vStr (chars "10.1234/5678")) (chars "doi") =
      .ok (.vDOI ⟨chars "10.1234", chars "5678"⟩) ∧
    bdCheck bibtexFields (.vDOI ⟨chars "10.1234", chars "5678"⟩) (chars "doi") =
      .exn .typeError := by
  exact ⟨by decide, by decide, by decide⟩

/- ===== Claim C2 ===== -/

/-- Claim C2 counterexample.  First input: in FIELD_VALUE the stream
    backslash-brace ends the entry at the brace (storing field a with empty
    value, leaving "b=c\x7d" unconsumed) although the claim says an escaped
    brace is accumulated and does not end the entry.  Second input: after one
    backslash both following commas are accumulated (a = ",,x"), although the
    claim says the escape is consumed by exactly the next character, which
    would make the second comma end the field. -/
theorem field_value_escape_cex :
    parseEntry (chars "article") (chars "k,a=\\\x7db=c\x7d") =
      .ok ([(chars "content_type", .vStr (chars "article")),
            (chars "key", .vStr (chars "k")),
            (chars "a", .vStr [])], [], chars "b=c\x7d", false) ∧
    parseEntry (chars "article") (chars "k,a=\\,,x\x7d") =
      .ok ([(chars "content_type", .vStr (chars "article")),
            (chars "key", .vStr (chars "k")),
            (chars "a", .vStr (chars ",,x"))], [], [], false) := by
  exact ⟨by decide, by decide⟩

/-- Claim C2 amended: in FIELD_VALUE a closing brace always stores the field
    name → value pair and ends the entry, escaped or not; a backslash toggles
    the escaped flag and is not accumulated; while the flag is set, comma,
    percent and opening brace lose their special meaning and are accumulated,
    and the flag persists across them (it is only toggled by backslashes, not
    consumed by the next character); an unescaped comma stores the pair and
    returns to the between-fields state. -/
theorem field_value_escape_amended
    (fuel : Nat) (d d2 : Dict) (ds ds2 : List Diag) (esc : Bool)
    (name acc rest : List Char) (c1 c2 : Char) :
    (setItem bibtexFields d (pyStrip name) (.vStr (pyStrip acc)) = .ok (d2, ds2) →
      parseEntryF (fuel + 1) d ds esc (.fieldValueE name acc) ('\x7d' :: rest) =
        .ok (d2, ds ++ ds2, rest, false)) ∧
    (parseEntryF (fuel + 1) d ds esc (.fieldValueE name acc) ('\\' :: rest) =
      parseEntryF fuel d ds (!esc) (.fieldValueE name acc) rest) ∧
    (c1 = ',' ∨ c1 = '%' ∨ c1 = '\x7b' →
      parseEntryF (fuel + 1) d ds true (.fieldValueE name acc) (c1 :: rest) =
        parseEntryF fuel d ds true (.fieldValueE name (acc ++ [c1])) rest) ∧
    ((c1 = ',' ∨ c1 = '%' ∨ c1 = '\x7b') → (c2 = ',' ∨ c2 = '%' ∨ c2 = '\x7b') →
      parseEntryF (fuel + 2) d ds true (.fieldValueE name acc) (c1 :: c2 :: rest) =
        parseEntryF fuel d ds true (.fieldValueE name (acc ++ [c1, c2])) rest) ∧
    (setItem bibtexFields d (pyStrip name) (.vStr (pyStrip acc)) = .ok (d2, ds2) →
      parseEntryF (fuel + 1) d ds false (.fieldValueE name acc) (',' :: rest) =
        parseEntryF fuel d2 (ds ++ ds2) false .outE rest) := by
  have hone : ∀ c, c = ',' ∨ c = '%' ∨ c = '\x7b' →
      ∀ (fl : Nat) (a : List Char) (r : List Char),
      parseEntryF (fl + 1) d ds true (.fieldValueE name a) (c :: r) =
        parseEntryF fl d ds true (.fieldValueE name (a ++ [c])) r := by
    rintro c (rfl | rfl | rfl) fl a r <;> rfl
  refine ⟨?_, rfl, fun h => hone c1 h fuel acc rest, ?_, ?_⟩
  · intro hsi
    have h1 : parseEntryF (fuel + 1) d ds esc (.fieldValueE name acc)
        ('\x7d' :: rest) =
        (match setItem bibtexFields d (pyStrip name) (.vStr (pyStrip acc)) with
         | .error e => .error e
         | .ok (d2, ds2) => .ok (d2, ds ++ ds2, rest, false)) := rfl
    rw [h1, hsi]
  · intro hc1 hc2
    rw [hone c1 hc1 (fuel + 1) acc (c2 :: rest), hone c2 hc2 fuel (acc ++ [c1]) rest,
      List.append_assoc]
    rfl
  · intro hsi
    have h1 : parseEntryF (fuel + 1) d ds false (.fieldValueE name acc)
        (',' :: rest) =
        (match setItem bibtexFields d (pyStrip name) (.vStr (pyStrip acc)) with
         | .error e => .error e
         | .ok (d2, ds2) => parseEntryF fuel d2 (ds ++ ds2) false .outE rest) := rfl
    rw [h1, hsi]

/-- Witness for C2 amended, at the state reached after "k,a=" with one
    backslash already seen: the escaped comma is accumulated with the flag
    kept, and a closing brace ends the entry even while escaped. -/
theorem field_value_escape_amended_witness :
    parseEntryF 9 [(chars "content_type", .vStr (chars "article"))] [] true
        (.fieldValueE (chars "a") []) (',' :: chars ",x\x7d") =
      parseEntryF 8 [(chars "content_type", .vStr (chars "article"))] [] true
        (.fieldValueE (chars "a") [',']) (chars ",x\x7d") ∧
    parseEntryF 9 [(chars "content_type", .vStr (chars "article"))] [] true
        (.fieldValueE (chars "a") []) ('\x7d' :: chars "b=c") =
      .ok ([(chars "content_type", .vStr (chars "article")),
            (chars "a", .vStr [])], [], chars "b=c", false) :=
  ⟨(field_value_escape_amended 8 [(chars "content_type", .vStr (chars "article"))]
      [] [] [] true (chars "a") [] (chars ",x\x7d") ',' ',').2.2.1 (.inl rfl),
   by
    have h := (field_value_escape_amended 8
      [(chars "content_type", .vStr (chars "article"))]
      [(chars "content_type", .vStr (chars "article")), (chars "a", .vStr [])]
      [] [] true (chars "a") [] (chars "b=c") ',' ',').1 (by decide)
    simpa using h⟩

/- ===== Claim C6 amended ===== -/

theorem pyListGet_mem {l : List (List Char)} {i : Int} {x : List Char}
    (h : pyListGet l i = .ok x) : x ∈ l := by
  unfold pyListGet at h
  cases hidx : pyIdx l.length i with
  | none =>
    rw [hidx] at h
    have h2 : (Except.error PyErr.indexError : Except PyErr (List Char)) = .ok x := h
    simp at h2
  | some j =>
    rw [hidx] at h
    have h2 : (match l.get? j with
        | none => (Except.error PyErr.indexError : Except PyErr (List Char))
        | some y => .ok y) = .ok x := h
    cases hget : l.get? j with
    | none =>
      rw [hget] at h2
      have h3 : (Except.error PyErr.indexError : Except PyErr (List Char)) = .ok x := h2
      simp at h3
    | some y =>
      rw [hget] at h2
      have h3 : (Except.ok y : Except PyErr (List Char)) = .ok x := h2
      injection h3 with h3
      subst h3
      exact List.get?_mem hget

theorem months_lower_self : ∀ m ∈ monthsL, pyLower m = m := by decide

theorem months_elem_self : ∀ m ∈ monthsL, monthsL.contains m = true := by decide

theorem monthValidator_mem {s m : List Char}
    (h : monthValidator s = .ok (.replaced m)) : m ∈ monthsL := by
  simp only [monthValidator] at h
  by_cases hc : monthsL.contains (pyLower s) = true
  · rw [if_pos hc] at h
    injection h with h
    injection h with h
    subst h
    exact List.mem_of_elem_eq_true hc
  · rw [if_neg hc] at h
    cases hf : longMonthsL.findIdx? (fun mm => mm == pyLower s) with
    | some i =>
      rw [hf] at h
      have h2 : (match pyListGet monthsL (i : Int) with
          | .error e => (Except.error e : Except PyErr MonthRes)
          | .ok mm => .ok (.replaced mm)) = .ok (.replaced m) := h
      cases hg : pyListGet monthsL (i : Int) with
      | error e =>
        rw [hg] at h2
        have h3 : (Except.error e : Except PyErr MonthRes) = .ok (.replaced m) := h2
        simp at h3
      | ok mm =>
        rw [hg] at h2
        have h3 : (Except.ok (MonthRes.replaced mm) : Except PyErr MonthRes) =
            .ok (.replaced m) := h2
        injection h3 with h3
        injection h3 with h3
        subst h3
        exact pyListGet_mem hg
    | none =>
      rw [hf] at h
      have h2 : (match pyInt s with
          | none => (Except.ok MonthRes.invalid : Except PyErr MonthRes)
          | some n =>
            match pyListGet monthsL (n - 1) with
            | .error e => .error e
            | .ok mm => .ok (.replaced mm)) = .ok (.replaced m) := h
      cases hpi : pyInt s with
      | none =>
        rw [hpi] at h2
        have h3 : (Except.ok MonthRes.invalid : Except PyErr MonthRes) =
            .ok (.replaced m) := h2
        simp at h3
      | some n =>
        rw [hpi] at h2
        have h3 : (match pyListGet monthsL (n - 1) with
            | .error e => (Except.error e : Except PyErr MonthRes)
            | .ok mm => .ok (.replaced mm)) = .ok (.replaced m) := h2
        cases hg : pyListGet monthsL (n - 1) with
        | error e =>
          rw [hg] at h3
          have h4 : (Except.error e : Except PyErr MonthRes) = .ok (.replaced m) := h3
          simp at h4
        | ok mm =>
          rw [hg] at h3
          have h4 : (Except.ok (MonthRes.replaced mm) : Except PyErr MonthRes) =
              .ok (.replaced m) := h3
          injection h4 with h4
          injection h4 with h4
          subst h4
          exact pyListGet_mem hg

theorem monthValidator_fixed {m : List Char} (hm : m ∈ monthsL) :
    monthValidator m = .ok (.replaced m) := by
  simp only [monthValidator]
  rw [months_lower_self m hm, if_pos (months_elem_self m hm)]

theorem pyStr_vStr (s : List Char) : pyStr (.vStr s) = s := rfl

theorem coerce_cStr (v : Value) : coerce .cStr v = .ok (.vStr (pyStr v)) := by
  cases v <;> rfl

theorem checkField_cStr (f : FieldSpec) (v : Value) (name : FieldName)
    (hty : f.ty = .cStr) :
    checkField f v name = bdCheckMin f (.vStr (pyStr v)) name := by
  unfold checkField
  rw [hty, coerce_cStr]

theorem checkField_cInt_vInt (f : FieldSpec) (n : Int) (name : FieldName)
    (hty : f.ty = .cInt) :
    checkField f (.vInt n) name = bdCheckMin f (.vInt n) name := by
  unfold checkField
  rw [hty]
  rfl

theorem bdCheckMin_none (f : FieldSpec) (v : Value) (name : FieldName)
    (hmi : f.min = none) : bdCheckMin f v name = bdCheckMax f v name := by
  unfold bdCheckMin
  rw [hmi]

theorem bdCheckMin_str_some (f : FieldSpec) (s : List Char) (name : FieldName)
    (m : Int) (hmi : f.min = some m) :
    bdCheckMin f (.vStr s) name = .exn .typeError := by
  unfold bdCheckMin
  rw [hmi]

theorem bdCheckMin_int_some (f : FieldSpec) (n : Int) (name : FieldName)
    (m : Int) (hmi : f.min = some m) :
    bdCheckMin f (.vInt n) name =
      if n < m then .fail [.belowMinimum name] else bdCheckMax f (.vInt n) name := by
  unfold bdCheckMin
  rw [hmi]

theorem bdCheckMax_none (f : FieldSpec) (v : Value) (name : FieldName)
    (hma : f.max = none) : bdCheckMax f v name = bdCheckValidator f v name := by
  unfold bdCheckMax
  rw [hma]

theorem bdCheckMax_str_some (f : FieldSpec) (s : List Char) (name : FieldName)
    (m : Int) (hma : f.max = some m) :
    bdCheckMax f (.vStr s) name = .exn .typeError := by
  unfold bdCheckMax
  rw [hma]

theorem bdCheckMax_int_some (f : FieldSpec) (n : Int) (name : FieldName)
    (m : Int) (hma : f.max = some m) :
    bdCheckMax f (.vInt n) name =
      if m < n then .fail [.aboveMaximum name] else bdCheckValidator f (.vInt n) name := by
  unfold bdCheckMax
  rw [hma]

theorem bdCheckValidator_none (f : FieldSpec) (v : Value) (name : FieldName)
    (hvd : f.validator = none) :
    bdCheckValidator f v name = bdCheckValues f v name := by
  unfold bdCheckValidator
  rw [hvd]

theorem bdCheckValidator_month_str (f : FieldSpec) (s : List Char)
    (name : FieldName) (hvd : f.validator = some .monthV) :
    bdCheckValidator f (.vStr s) name =
      match monthValidator s with
      | .error .valueError => .fail [.failedValidator name]
      | .error e => .exn e
      | .ok .invalid => .fail [.failedValidator name]
      | .ok (.replaced m) => bdCheckValues f (.vStr m) name := by
  unfold bdCheckValidator
  rw [hvd]
  rfl

theorem bdCheckValidator_month_int (f : FieldSpec) (n : Int) (name : FieldName)
    (hvd : f.validator = some .monthV) :
    bdCheckValidator f (.vInt n) name = .exn .typeError := by
  unfold bdCheckValidator
  rw [hvd]
  rfl

theorem bdCheckValues_none (f : FieldSpec) (v : Value) (name : FieldName)
    (hvals : f.values = none) : bdCheckValues f v name = .ok v := by
  unfold bdCheckValues
  rw [hvals]

theorem bdCheckValues_some (f : FieldSpec) (v : Value) (name : FieldName)
    (vs : List Value) (hvals : f.values = some vs) :
    bdCheckValues f v name =
      if v ∈ vs then .ok v else .fail [.notInAllowedSet name] := by
  unfold bdCheckValues
  rw [hvals]

theorem coerce_cInt_shape {v u : Value} (h : coerce .cInt v = .ok u) :
    ∃ n : Int, u = .vInt n := by
  cases v with
  | vStr s =>
    have h1 : (match pyInt s with
        | some n => CoerceOut.ok (.vInt n)
        | none => CoerceOut.valErr) = .ok u := h
    cases hpi : pyInt s with
    | none =>
      rw [hpi] at h1
      have h2 : CoerceOut.valErr = .ok u := h1
      simp at h2
    | some n =>
      rw [hpi] at h1
      have h2 : CoerceOut.ok (.vInt n) = .ok u := h1
      injection h2 with h2
      exact ⟨n, h2.symm⟩
  | vInt n =>
    have h2 : CoerceOut.ok (.vInt n) = .ok u := h
    injection h2 with h2
    exact ⟨n, h2.symm⟩
  | vAuthorList l =>
    have h2 : CoerceOut.exn .typeError = .ok u := h
    simp at h2
  | vDOI dd =>
    have h2 : CoerceOut.exn .typeError = .ok u := h
    simp at h2
  | vPageRange b e =>
    have h2 : CoerceOut.exn .typeError = .ok u := h
    simp at h2

/-- The tail of the pipeline (validator and allowed set, bounds already
    passed) is idempotent on string values when re-coercion is the string
    identity. -/
theorem bdCheckValidator_str_idem (f : FieldSpec) (s : List Char) (w : Value)
    (name : FieldName) (hmi : f.min = none) (hma : f.max = none)
    (h : bdCheckValidator f (.vStr s) name = .ok w) :
    checkField f w name = .ok w ∨ f.ty ≠ .cStr := by
  by_cases hty : f.ty = .cStr
  · left
    cases hvd : f.validator with
    | none =>
      rw [bdCheckValidator_none f _ name hvd] at h
      cases hvals : f.values with
      | none =>
        rw [bdCheckValues_none f _ name hvals] at h
        injection h with h
        subst h
        rw [checkField_cStr f _ name hty, pyStr_vStr, bdCheckMin_none f _ name hmi,
          bdCheckMax_none f _ name hma, bdCheckValidator_none f _ name hvd,
          bdCheckValues_none f _ name hvals]
      | some vs =>
        rw [bdCheckValues_some f _ name vs hvals] at h
        by_cases hmem : (Value.vStr s) ∈ vs
        · rw [if_pos hmem] at h
          injection h with h
          subst h
          rw [checkField_cStr f _ name hty, pyStr_vStr, bdCheckMin_none f _ name hmi,
            bdCheckMax_none f _ name hma, bdCheckValidator_none f _ name hvd,
            bdCheckValues_some f _ name vs hvals, if_pos hmem]
        · rw [if_neg hmem] at h
          simp at h
    | some vdv =>
      cases vdv
      rw [bdCheckValidator_month_str f s name hvd] at h
      cases hmv : monthValidator s with
      | error e =>
        rw [hmv] at h
        cases e with
        | valueError =>
          have h2 : CheckOut.fail [.failedValidator name] = .ok w := h
          simp at h2
        | keyError => have h2 : CheckOut.exn .keyError = .ok w := h; simp at h2
        | typeError => have h2 : CheckOut.exn .typeError = .ok w := h; simp at h2
        | indexError => have h2 : CheckOut.exn .indexError = .ok w := h; simp at h2
      | ok mr =>
        rw [hmv] at h
        cases mr with
        | invalid =>
          have h2 : CheckOut.fail [.failedValidator name] = .ok w := h
          simp at h2
        | replaced m =>
          have h2 : bdCheckValues f (.vStr m) name = .ok w := h
          have hmem := monthValidator_mem hmv
          cases hvals : f.values with
          | none =>
            rw [bdCheckValues_none f _ name hvals] at h2
            injection h2 with h2
            subst h2
            rw [checkField_cStr f _ name hty, pyStr_vStr, bdCheckMin_none f _ name hmi,
              bdCheckMax_none f _ name hma, bdCheckValidator_month_str f m name hvd,
              monthValidator_fixed hmem]
            show bdCheckValues f (.vStr m) name = .ok (.vStr m)
            rw [bdCheckValues_none f _ name hvals]
          | some vs =>
            rw [bdCheckValues_some f _ name vs hvals] at h2
            by_cases hin : (Value.vStr m) ∈ vs
            · rw [if_pos hin] at h2
              injection h2 with h2
              subst h2
              rw [checkField_cStr f _ name hty, pyStr_vStr, bdCheckMin_none f _ name hmi,
                bdCheckMax_none f _ name hma, bdCheckValidator_month_str f m name hvd,
                monthValidator_fixed hmem]
              show bdCheckValues f (.vStr m) name = .ok (.vStr m)
              rw [bdCheckValues_some f _ name vs hvals, if_pos hin]
            · rw [if_neg hin] at h2
              simp at h2
  · right
    exact hty

theorem bdCheckValues_int_idem (f : FieldSpec) (n : Int) (w : Value)
    (name : FieldName) (h : bdCheckValues f (.vInt n) name = .ok w) :
    w = .vInt n ∧ bdCheckValues f (.vInt n) name = .ok (.vInt n) := by
  cases hvals : f.values with
  | none =>
    rw [bdCheckValues_none f _ name hvals] at h ⊢
    injection h with h
    exact ⟨h.symm, rfl⟩
  | some vs =>
    rw [bdCheckValues_some f _ name vs hvals] at h ⊢
    by_cases hmem : (Value.vInt n) ∈ vs
    · rw [if_pos hmem] at h ⊢
      injection h with h
      exact ⟨h.symm, rfl⟩
    · rw [if_neg hmem] at h
      simp at h

theorem bdCheckValidator_int_idem (f : FieldSpec) (n : Int) (w : Value)
    (name : FieldName) (h : bdCheckValidator f (.vInt n) name = .ok w) :
    w = .vInt n ∧ bdCheckValidator f (.vInt n) name = .ok (.vInt n) := by
  cases hvd : f.validator with
  | some vdv =>
    cases vdv
    rw [bdCheckValidator_month_int f n name hvd] at h
    simp at h
  | none =>
    rw [bdCheckValidator_none f _ name hvd] at h ⊢
    exact bdCheckValues_int_idem f n w name h

theorem bdCheckMax_int_idem (f : FieldSpec) (n : Int) (w : Value)
    (name : FieldName) (h : bdCheckMax f (.vInt n) name = .ok w) :
    w = .vInt n ∧ bdCheckMax f (.vInt n) name = .ok (.vInt n) := by
  cases hma : f.max with
  | some m =>
    rw [bdCheckMax_int_some f n name m hma] at h ⊢
    by_cases hgt : m < n
    · rw [if_pos hgt] at h
      simp at h
    · rw [if_neg hgt] at h ⊢
      exact bdCheckValidator_int_idem f n w name h
  | none =>
    rw [bdCheckMax_none f _ name hma] at h ⊢
    exact bdCheckValidator_int_idem f n w name h

theorem bdCheckMin_int_idem (f : FieldSpec) (n : Int) (w : Value)
    (name : FieldName) (h : bdCheckMin f (.vInt n) name = .ok w) :
    w = .vInt n ∧ bdCheckMin f (.vInt n) name = .ok (.vInt n) := by
  cases hmi : f.min with
  | some m =>
    rw [bdCheckMin_int_some f n name m hmi] at h ⊢
    by_cases hlt : n < m
    · rw [if_pos hlt] at h
      simp at h
    · rw [if_neg hlt] at h ⊢
      exact bdCheckMax_int_idem f n w name h
  | none =>
    rw [bdCheckMin_none f _ name hmi] at h ⊢
    exact bdCheckMax_int_idem f n w name h

/-- Re-running steps 2 to 6 on an accepted value yields the same value, for a
    Field Specification whose declared type is str or int. -/
theorem checkField_idem (f : FieldSpec) (v w : Value) (name : FieldName)
    (hty : f.ty = .cStr ∨ f.ty = .cInt)
    (h : checkField f v name = .ok w) : checkField f w name = .ok w := by
  rcases hty with hty | hty
  · -- str coercion
    rw [checkField_cStr f v name hty] at h
    cases hmi : f.min with
    | some m =>
      rw [bdCheckMin_str_some f _ name m hmi] at h
      simp at h
    | none =>
      rw [bdCheckMin_none f _ name hmi] at h
      cases hma : f.max with
      | some m =>
        rw [bdCheckMax_str_some f _ name m hma] at h
        simp at h
      | none =>
        rw [bdCheckMax_none f _ name hma] at h
        rcases bdCheckValidator_str_idem f (pyStr v) w name hmi hma h with hgood | hbad
        · exact hgood
        · exact absurd hty hbad
  · -- int coercion
    unfold checkField at h
    rw [hty] at h
    cases hco : coerce .cInt v with
    | valErr =>
      rw [hco] at h
      have h2 : CheckOut.fail [.typeMismatch name] = .ok w := h
      simp at h2
    | exn e =>
      rw [hco] at h
      have h2 : CheckOut.exn e = .ok w := h
      simp at h2
    | ok v0 =>
      rw [hco] at h
      have h2 : bdCheckMin f v0 name = .ok w := h
      obtain ⟨n, rfl⟩ := coerce_cInt_shape hco
      obtain ⟨rfl, hmin⟩ := bdCheckMin_int_idem f n w name h2
      rw [checkField_cInt_vInt f n name hty]
      exact hmin

/-- Claim C6 amended: the validation pipeline of the BibTeX schema is
    idempotent exactly on the fields whose declared type is str or int (all
    fields except author, doi and pages): re-validating an accepted typed
    value succeeds with the same value.  For the class-typed fields the
    re-coercion raises instead (see the counterexample). -/
theorem validate_idem_amended (name : FieldName) (f : FieldSpec) (v w : Value)
    (hf : bibtexFields name = some f) (hty : f.ty = .cStr ∨ f.ty = .cInt)
    (h : bdCheck bibtexFields v name = .ok w) :
    bdCheck bibtexFields w name = .ok w := by
  unfold bdCheck at h ⊢
  rw [hf] at h ⊢
  exact checkField_idem f v w name hty h


/- ===== Claim C3 ===== -/


/-- Claim C3 counterexample: writing a collection holding an article record
    without an author field (or any alias) does not succeed with a
    missing-required-field diagnostic — citation-key generation indexes the
    record with None and the KeyError escapes, aborting the write. -/
theorem write_missing_author_cex :
    writeAll [noAuthorRec] = .error .keyError := by decide

theorem getField_required_none (d : Dict) (f : FieldName)
    (h : (getField d f true).1 = none) :
    getField d f true = (none, [.missingRequiredField f]) := by
  unfold getField at h ⊢
  by_cases hc : dictContains d f = true
  · rw [if_pos hc] at h
    simp at h
  · rw [if_neg hc] at h ⊢
    split at h
    next aliases ha =>
      split at h
      next a hin => simp at h
      next hin => rfl
    next ha => rfl

/-- Any required schema field that does not resolve contributes its
    missing-required-field diagnostic to the required pass, whatever the
    running fieldsDone list. -/
theorem writeFields_missing (d : Dict) (fs : List FieldName) (f : FieldName)
    (hf : f ∈ fs) (hnone : (getField d f true).1 = none) :
    ∀ done, Diag.missingRequiredField f ∈ (writeFields d true fs done).2.1 := by
  induction fs with
  | nil => cases hf
  | cons g gs ih =>
    intro done
    have hw1 : writeFields d true (g :: gs) done =
        (match getField d g true with
         | (some field, ds1) =>
           (match dictLookup d field with
            | some v =>
              match writeFields d true gs (done ++ [field]) with
              | (ls, ds, done2) => (.fieldLine g (pyStr v) :: ls, ds1 ++ ds, done2)
            | none =>
              match writeFields d true gs done with
              | (ls, ds, done2) => (ls, ds1 ++ ds, done2))
         | (none, ds1) =>
           match writeFields d true gs done with
           | (ls, ds, done2) => (ls, ds1 ++ ds, done2)) := rfl
    rcases List.mem_cons.mp hf with rfl | hmem
    · rcases hw : writeFields d true gs done with ⟨ls, ds, done2⟩
      have h2 : writeFields d true (f :: gs) done =
          (ls, [Diag.missingRequiredField f] ++ ds, done2) := by
        rw [hw1, getField_required_none d f hnone, hw]
      rw [h2]
      simp
    · rw [hw1]
      split
      next field ds1 hg =>
        split
        next v hl =>
          split
          next ls ds done2 hw =>
            have hmem2 := ih hmem (done ++ [field])
            rw [hw] at hmem2
            simp [hmem2]
        next hl =>
          split
          next ls ds done2 hw =>
            have hmem2 := ih hmem done
            rw [hw] at hmem2
            simp [hmem2]
      next ds1 hg =>
        split
        next ls ds done2 hw =>
          have hmem2 := ih hmem done
          rw [hw] at hmem2
          simp [hmem2]

/-- Claim C3 amended: for a record whose content_type is a known entry type
    and whose citation key can be generated (in particular the author field
    resolves — a record without one makes the write raise, see the
    counterexample), writing succeeds syntactically: every required field of
    the entry type that cannot be resolved under the canonical name or any
    alias yields a missing-required-field diagnostic, and writing continues
    with the remaining fields and with the remaining records of the
    collection. -/
theorem write_missing_field_amended (d : Dict) (ct : List Char) (bt : BibType)
    (key : List Char) (rest : List Dict) (lsR : List OutLine) (dsR : List Diag)
    (hct : dictLookup d (chars "content_type") = some (.vStr ct))
    (hbt : assocFind bibTypesAssoc ct = some bt)
    (hkey : genKey d = .ok key)
    (hrest : writeAll rest = .ok (lsR, dsR)) :
    writeRecord d = .ok (writeBody d ct key bt) ∧
    (∀ f ∈ bt.required, (getField d f true).1 = none →
      Diag.missingRequiredField f ∈ (writeBody d ct key bt).2) ∧
    writeAll (d :: rest) =
      .ok ((writeBody d ct key bt).1 ++ lsR, (writeBody d ct key bt).2 ++ dsR) := by
  have s1 : writeRecord d =
      (match genKey d with
       | .error e => .error e
       | .ok key2 =>
         match assocFind bibTypesAssoc ct with
         | none => .error .keyError
         | some bt2 => .ok (writeBody d ct key2 bt2)) := by
    unfold writeRecord
    rw [hct]
  have s2 : writeRecord d = .ok (writeBody d ct key bt) := by
    rw [s1, hkey, hbt]
  refine ⟨s2, ?_, ?_⟩
  · intro f hf hnone
    have hm := writeFields_missing d bt.required f hf hnone [chars "content_type"]
    have hb : (writeBody d ct key bt).2 =
        (writeFields d true bt.required [chars "content_type"]).2.1 ++
        (writeFields d false bt.optional
          (writeFields d true bt.required [chars "content_type"]).2.2).2.1 := rfl
    rw [hb]
    exact List.mem_append_left _ hm
  · have s3 : writeAll (d :: rest) =
        (match writeRecord d with
         | .error e => .error e
         | .ok (ls, ds) =>
           match writeAll rest with
           | .error e => .error e
           | .ok (ls2, ds2) => .ok (ls ++ ls2, ds ++ ds2)) := rfl
    rw [s3, s2, hrest]

/-- Witness for C3 amended: an article record with only its author present is
    written successfully with one missing-required-field diagnostic for each
    of title, journal, year and volume. -/
theorem write_missing_field_amended_witness :
    writeRecord [(chars "content_type", .vStr (chars "article")),
                 (chars "author", .vAuthorList [⟨chars "Smith", [chars "John"]⟩])] =
      .ok (writeBody [(chars "content_type", .vStr (chars "article")),
                      (chars "author", .vAuthorList [⟨chars "Smith", [chars "John"]⟩])]
        (chars "article") (chars "Smith")
        ⟨[chars "author", chars "title", chars "journal", chars "year",
          chars "volume"],
         [chars "number", chars "pages", chars "month", chars "doi"]⟩) ∧
    Diag.missingRequiredField (chars "title") ∈
      (writeBody [(chars "content_type", .vStr (chars "article")),
                  (chars "author", .vAuthorList [⟨chars "Smith", [chars "John"]⟩])]
        (chars "article") (chars "Smith")
        ⟨[chars "author", chars "title", chars "journal", chars "year",
          chars "volume"],
         [chars "number", chars "pages", chars "month", chars "doi"]⟩).2 :=
  have h := write_missing_field_amended
    [(chars "content_type", .vStr (chars "article")),
     (chars "author", .vAuthorList [⟨chars "Smith", [chars "John"]⟩])]
    (chars "article")
    ⟨[chars "author", chars "title", chars "journal", chars "year",
      chars "volume"],
     [chars "number", chars "pages", chars "month", chars "doi"]⟩
    (chars "Smith") [] [] []
    (by decide) (by decide) (by decide) (by decide)
  ⟨h.1, h.2.1 (chars "title") (by decide) (by decide)⟩

/- ===== Claim C8 ===== -/




theorem initialsOf_spec (rest : List Author) (h : ∀ a ∈ rest, a.name ≠ []) :
    initialsOf rest = .ok ((rest.map specInitial).flatten) := by
  induction rest with
  | nil => rfl
  | cons a as ih =>
    have hname := h a (List.mem_cons_self a as)
    obtain ⟨c, cs, hac⟩ : ∃ c cs, a.name = c :: cs := by
      cases hn : a.name with
      | nil => exact absurd hn hname
      | cons c cs => exact ⟨c, cs, rfl⟩
    have h1 : authorInitial a = .ok c.toUpper := by
      unfold authorInitial
      rw [hac]
    have h2 := ih (fun b hb => h b (List.mem_cons_of_mem a hb))
    unfold initialsOf
    rw [h1, h2]
    simp [specInitial, hac]

theorem resolved_getD (d : Dict) (nm : FieldName) :
    (match (getField d nm false).1 with
     | none => ([] : List Char)
     | some yf =>
       match dictLookup d yf with
       | none => []
       | some yv => pyStr yv) = (resolvedStr d nm).getD [] := by
  unfold resolvedStr
  cases (getField d nm false).1 with
  | none => rfl
  | some yf =>
    show (match dictLookup d yf with
        | none => ([] : List Char)
        | some yv => pyStr yv) = ((dictLookup d yf).map pyStr).getD []
    cases dictLookup d yf with
    | none => rfl
    | some yv => rfl

theorem genKeyTail_spec (d : Dict) (key1 : List Char)
    (hpub : ∀ pf v, (getField d (chars "publication_code") false).1 = some pf →
      dictLookup d pf = some v → ∃ s, v = .vStr s) :
    genKeyTail d key1 = .ok (key1 ++ (resolvedStr d (chars "year")).getD [] ++
      (resolvedStr d (chars "publication_code")).getD []) := by
  unfold genKeyTail
  rw [resolved_getD d (chars "year")]
  cases hp : (getField d (chars "publication_code") false).1 with
  | none => simp [resolvedStr, hp]
  | some pf =>
    cases hl : dictLookup d pf with
    | none => simp [resolvedStr, hp, hl]
    | some v =>
      obtain ⟨s, rfl⟩ := hpub pf v hp hl
      simp [resolvedStr, hp, hl, pyStr, List.append_assoc]




/-- Claim C8: for every record whose author field resolves to a non-empty
    author list (with non-empty surnames, and a string-valued publication
    code when one resolves), the generated citation key is the first author's
    surname, the remaining authors' initials in order, the year if present and
    the publication code if present, with no separators.  In particular the
    section-8 article entry parses to the expected record, regenerates the
    citation key Smith2020, and is written with author, title, journal, year
    and volume in that order before the remaining key field. -/
theorem genkey_follows_spec (d : Dict) (f : FieldName) (a0 : Author)
    (rest : List Author)
    (hf : (getField d (chars "author") false).1 = some f)
    (hv : dictLookup d f = some (.vAuthorList (a0 :: rest)))
    (hnames : ∀ a ∈ rest, a.name ≠ [])
    (hpub : ∀ pf v, (getField d (chars "publication_code") false).1 = some pf →
      dictLookup d pf = some v → ∃ s, v = .vStr s) :
    genKey d = .ok (specCitationKey (a0 :: rest) (resolvedStr d (chars "year"))
      (resolvedStr d (chars "publication_code"))) ∧
    parseFile smithInput = .ok ([smithRec], []) ∧
    genKey smithRec = .ok (chars "Smith2020") ∧
    writeRecord smithRec = .ok (smithLines, []) := by
  refine ⟨?_, by decide, by decide, by decide⟩
  have g1 : genKey d =
      (match dictLookup d f with
       | none => .error .keyError
       | some v => genKeyOf d v) := by
    unfold genKey
    rw [hf]
  have g2 : genKey d = genKeyOf d (.vAuthorList (a0 :: rest)) := by
    rw [g1, hv]
  have g3 : genKey d = genKeyTail d (a0.name ++ (rest.map specInitial).flatten) := by
    rw [g2]
    show (match initialsOf rest with
        | .error e => (.error e : Except PyErr (List Char))
        | .ok inits => genKeyTail d (a0.name ++ inits)) =
      genKeyTail d (a0.name ++ (rest.map specInitial).flatten)
    rw [initialsOf_spec rest hnames]
  rw [g3, genKeyTail_spec d _ hpub]
  simp [specCitationKey, List.append_assoc]

/-- Witness for C8: the theorem applied to the section-8 record itself. -/
theorem genkey_follows_spec_witness :
    genKey smithRec = .ok (specCitationKey
      [⟨chars "Smith", [chars "John"]⟩]
      (resolvedStr smithRec (chars "year"))
      (resolvedStr smithRec (chars "publication_code"))) ∧
    parseFile smithInput = .ok ([smithRec], []) ∧
    genKey smithRec = .ok (chars "Smith2020") ∧
    writeRecord smithRec = .ok (smithLines, []) :=
  genkey_follows_spec smithRec (chars "author") ⟨chars "Smith", [chars "John"]⟩ []
    (by decide) (by decide) (by simp)
    (fun pf v hp hv => by
      rw [show (getField smithRec (chars "publication_code") false).1 = none
        from by decide] at hp
      cases hp)

/- ===== Claim C9 ===== -/



theorem specTokens_eq (l : List Char) : specTokens l = splitStripFilter l := by
  unfold specTokens splitStripFilter
  apply List.filter_congr
  intro x _
  by_cases h : x.length ≤ 1
  · simp [h, Nat.not_lt.mpr h]
  · simp [h, Nat.not_le.mp h]

theorem pySplitChar_ne_nil (sep : Char) (l : List Char) :
    pySplitChar sep l ≠ [] := by
  cases l with
  | nil => simp [pySplitChar]
  | cons c rest =>
    unfold pySplitChar
    cases pySplitChar sep rest with
    | nil => simp
    | cons h t =>
      by_cases hc : (c == sep) = true <;> simp [hc]

theorem pySplitChar_length (sep : Char) (l : List Char) :
    (pySplitChar sep l).length = l.count sep + 1 := by
  induction l with
  | nil => rfl
  | cons c rest ih =>
    unfold pySplitChar
    cases hrec : pySplitChar sep rest with
    | nil => exact absurd hrec (pySplitChar_ne_nil sep rest)
    | cons h t =>
      rw [hrec] at ih
      rw [List.count_cons]
      by_cases hc : c = sep
      · have hbeq : (c == sep) = true := beq_iff_eq.mpr hc
        show (if (c == sep) = true then [] :: h :: t else (c :: h) :: t).length =
          rest.count sep + (if (c == sep) = true then 1 else 0) + 1
        rw [hbeq]
        simp only [if_true, List.length_cons] at *
        omega
      · have hbeq : (c == sep) = false := beq_eq_false_iff_ne.mpr hc
        show (if (c == sep) = true then [] :: h :: t else (c :: h) :: t).length =
          rest.count sep + (if (c == sep) = true then 1 else 0) + 1
        rw [hbeq]
        simp only [Bool.false_eq_true, if_false, List.length_cons] at *
        omega

theorem pySplitChar_count_zero {sep : Char} {l : List Char}
    (h : l.count sep = 0) : pySplitChar sep l = [l] := by
  induction l with
  | nil => rfl
  | cons c rest ih =>
    rw [List.count_cons] at h
    by_cases hc : c = sep
    · rw [beq_iff_eq.mpr hc] at h
      simp at h
    · have hbeq : (c == sep) = false := beq_eq_false_iff_ne.mpr hc
      rw [hbeq] at h
      simp only [Bool.false_eq_true, if_false, Nat.add_zero] at h
      show (match pySplitChar sep rest with
          | [] => [[c]]
          | hd :: t => if (c == sep) = true then [] :: hd :: t
                       else (c :: hd) :: t) = [c :: rest]
      rw [ih h, hbeq]
      simp

theorem authorFromString_eq_spec (value : List Char) :
    authorFromString value = specAuthorFromString value := by
  by_cases h0 : value.count ',' = 0
  · have e1 : authorFromString value =
        (match (splitStripFilter value).getLast? with
         | none => .error .indexError
         | some n => .ok ⟨n, (splitStripFilter value).dropLast⟩) := by
      unfold authorFromString
      rw [pySplitChar_count_zero h0]
    have e2 : specAuthorFromString value =
        (match (splitStripFilter value).getLast? with
         | some n => .ok ⟨n, (splitStripFilter value).dropLast⟩
         | none => .error .indexError) := by
      unfold specAuthorFromString
      rw [if_pos h0, specTokens_eq]
    rw [e1, e2]
    cases (splitStripFilter value).getLast? <;> rfl
  · by_cases h1 : value.count ',' = 1
    · obtain ⟨p0, p1, hsplit⟩ : ∃ p0 p1, pySplitChar ',' value = [p0, p1] := by
        have hlen := pySplitChar_length ',' value
        rw [h1] at hlen
        rcases hs : pySplitChar ',' value with _ | ⟨a, _ | ⟨b, _ | ⟨c, t⟩⟩⟩
        · exact absurd hs (pySplitChar_ne_nil ',' value)
        · rw [hs] at hlen
          simp at hlen
        · exact ⟨a, b, rfl⟩
        · rw [hs] at hlen
          simp only [List.length_cons] at hlen
          omega
      have e1 : authorFromString value = .ok ⟨pyStrip p0, splitStripFilter p1⟩ := by
        unfold authorFromString
        rw [hsplit]
      have e2 : specAuthorFromString value = .ok ⟨pyStrip p0, specTokens p1⟩ := by
        unfold specAuthorFromString
        rw [if_neg h0, if_pos h1, hsplit]
      rw [e1, e2, specTokens_eq]
    · have e2 : specAuthorFromString value = .error .valueError := by
        unfold specAuthorFromString
        rw [if_neg h0, if_neg h1]
      have hlen := pySplitChar_length ',' value
      rcases hs : pySplitChar ',' value with _ | ⟨a, _ | ⟨b, _ | ⟨c, t⟩⟩⟩
      · exact absurd hs (pySplitChar_ne_nil ',' value)
      · rw [hs] at hlen
        simp only [List.length_cons, List.length_nil] at hlen
        omega
      · rw [hs] at hlen
        simp only [List.length_cons, List.length_nil] at hlen
        omega
      · have e1 : authorFromString value = .error .valueError := by
          unfold authorFromString
          rw [hs]
        rw [e1, e2]

/-- Claim C9: Author construction from a string follows the specification
    word for word (no comma: space-split, trim, drop length-at-most-1 tokens,
    last token is the surname; one comma: trimmed prefix is the surname and
    the token rule applies to the rest; other comma counts fail with a hard
    error), the list constructor takes element 0 as the surname and the rest
    as forenames, and the initial is the first character of the surname,
    uppercased. -/
theorem author_parsing_spec :
    (∀ value, authorFromString value = specAuthorFromString value) ∧
    authorFromList [chars "Name1", chars "Firstname"] =
      .ok ⟨chars "Name1", [chars "Firstname"]⟩ ∧
    authorInitial ⟨chars "Name1", [chars "Firstname"]⟩ = .ok 'N' ∧
    (∀ (a : Author) (c : Char) (cs : List Char), a.name = c :: cs →
      authorInitial a = .ok c.toUpper) ∧
    authorFromString (chars "Firstname Name1") =
      .ok ⟨chars "Name1", [chars "Firstname"]⟩ ∧
    (∀ value, 2 ≤ value.count ',' → authorFromString value = .error .valueError) := by
  refine ⟨authorFromString_eq_spec, by decide, by decide, ?_, by decide, ?_⟩
  · intro a c cs hac
    unfold authorInitial
    rw [hac]
  · intro value h2
    rw [authorFromString_eq_spec]
    unfold specAuthorFromString
    rw [if_neg (by omega), if_neg (by omega)]

/-- Witness for C9: the specification reading and the implementation agree on
    a concrete name, the initial of a concrete author is its uppercased first
    surname character, and a two-comma string is rejected. -/
theorem author_parsing_spec_witness :
    authorFromString (chars "Name1, Firstname") =
      specAuthorFromString (chars "Name1, Firstname") ∧
    authorInitial ⟨chars "smith", []⟩ = .ok 'S' ∧
    authorFromString (chars "a,b,c") = .error .valueError :=
  ⟨author_parsing_spec.1 (chars "Name1, Firstname"),
   author_parsing_spec.2.2.2.1 ⟨chars "smith", []⟩ 's' (chars "mith") rfl,
   author_parsing_spec.2.2.2.2.2 (chars "a,b,c") (by decide)⟩

/-- Witness for C10: a volume of 2 is overwritten by the valid raw value "3"
    with a duplicate-field diagnostic, and kept against the invalid raw value
    "0" (which only reports its below-minimum diagnostic). -/
theorem duplicate_field_overwrite_witness :
    (setItem bibtexFields [(chars "volume", .vInt 2)] (chars "volume")
        (.vStr (chars "3")) =
      .ok (dictInsert [(chars "volume", .vInt 2)] (chars "volume") (.vInt 3),
           [.duplicateField (chars "volume")])) ∧
    (setItem bibtexFields [(chars "volume", .vInt 2)] (chars "volume")
        (.vStr (chars "0")) =
      .ok ([(chars "volume", .vInt 2)], [.belowMinimum (chars "volume")])) :=
  have h := duplicate_field_overwrite bibtexFields [(chars "volume", .vInt 2)]
    (chars "volume") (.vInt 2) (by decide)
  ⟨(h.1 (.vStr (chars "3")) (.vInt 3) (by decide)).1,
   (h.2 (.vStr (chars "0")) [.belowMinimum (chars "volume")] (by decide)).1⟩

/-- Witness for C4 amended: inserting a title through the copy of the record
    at index 0 stores it in the shared map. -/
theorem record_copy_amended_witness :
    bibDataCopy c4Heap 0 = (c4Heap, 0) ∧
    ∃ d2 ds, setItemRef bibtexFields (bibDataCopy c4Heap 0).1 (bibDataCopy c4Heap 0).2
        (chars "title") (.vStr (chars "T")) = .ok (c4Heap.set 0 d2, ds) ∧
      lookupRef (c4Heap.set 0 d2) 0 (chars "title") = some (.vStr (chars "T")) :=
  record_copy_amended bibtexFields c4Heap 0 (chars "title") (.vStr (chars "T"))
    (.vStr (chars "T")) (by decide) (by decide)

/-- Witness for C6 amended: re-validating the accepted volume value 3 and the
    normalized month value "jan" yields the same values. -/
theorem validate_idem_amended_witness :
    bdCheck bibtexFields (.vInt 3) (chars "volume") = .ok (.vInt 3) ∧
    bdCheck bibtexFields (.vStr (chars "jan")) (chars "month") =
      .ok (.vStr (chars "jan")) :=
  ⟨validate_idem_amended (chars "volume") { ty := .cInt, min := some 1 }
      (.vStr (chars "3")) (.vInt 3) (by decide) (.inr rfl) (by decide),
   validate_idem_amended (chars "month") { ty := .cStr, validator := some .monthV }
      (.vStr (chars "January")) (.vStr (chars "jan")) (by decide) (.inl rfl)
      (by decide)⟩

end Pythography
